import Mathlib

/-!
Verification of the configuration codec and transaction protocol of a
terraform provider for Junos devices, covering the sampled resources:
security ipsec policy, security ike proposal, security ike policy and
ospf area.

Go strings are modelled as lists of characters (`GoStr`); the helper
functions below mirror the Go `strings` and `strconv` library functions
used by the source files.  Each resource's codec (`setX` building the
staged configuration lines, `readX` parsing a `display set relative`
dump back into the option record) is translated directly from the Go
source.  The lifecycle operations (create/update/delete) are modelled as
functions from the record fields and an environment of device responses
to the list of session events they perform plus their outcome.
-/

deriving instance DecidableEq for Except

/-- Go strings, modelled as their character sequences. -/
abbrev GoStr := List Char

/-- Mirrors Go `strings.HasPrefix`. -/
def hasPre (s pre : GoStr) : Bool := pre.isPrefixOf s

/-- Mirrors Go `strings.TrimPrefix`: drops `pre` when it is a prefix of `s`,
otherwise returns `s` unchanged. -/
def trimPre (s pre : GoStr) : GoStr := if pre.isPrefixOf s then s.drop pre.length else s

/-- Mirrors Go `strings.Contains` (substring test). -/
def containsSub (s sub : GoStr) : Bool := s.tails.any fun t => sub.isPrefixOf t

/-- Mirrors Go `strings.Split` with a one-character separator: `goSplit sep s`
splits `s` at every occurrence of `sep`; the empty string yields `[[]]`. -/
def goSplit (sep : Char) : GoStr → List GoStr
  | [] => [[]]
  | c :: rest =>
    if c = sep then [] :: goSplit sep rest
    else
      match goSplit sep rest with
      | [] => [[c]]
      | h :: t => (c :: h) :: t

/-- Joins lines with a separator character; inverse of `goSplit` on
separator-free lines.  Used to build the raw multi-line device response fed
to the read parsers. -/
def goJoin (sep : Char) : List GoStr → GoStr
  | [] => []
  | [l] => l
  | l :: ls => l ++ sep :: goJoin sep ls

/-- Mirrors Go `strings.Trim(s, "\"")`: removes all leading and trailing
double-quote characters. -/
def goTrimQuotes (s : GoStr) : GoStr :=
  ((s.dropWhile fun c => c = '"').reverse.dropWhile fun c => c = '"').reverse

/-- Decimal value of a digit character, `none` for non-digits. -/
def digitVal (c : Char) : Option Nat :=
  if '0' ≤ c ∧ c ≤ '9' then some (c.toNat - '0'.toNat) else none

/-- Digit character for a decimal value below 10. -/
def digitChr (d : Nat) : Char :=
  if d < 10 then Char.ofNat ('0'.toNat + d) else '*'

/-- Numeric value of a big-endian digit string. -/
def digitsToNat (cs : GoStr) : Nat :=
  cs.foldl (fun a c => a * 10 + (digitVal c).getD 0) 0

/-- All characters are decimal digits. -/
def allDigits (cs : GoStr) : Bool := cs.all fun c => (digitVal c).isSome

/-- Error message payload of a failed integer parse. -/
def invalidSyntaxMsg : GoStr := "invalid syntax".data

/-- Unsigned part of `strconv.Atoi`: a non-empty all-digit string parses to
its value, anything else is an error. -/
def atoiCore (cs : GoStr) : Except GoStr Nat :=
  if cs ≠ [] ∧ allDigits cs = true then .ok (digitsToNat cs) else .error invalidSyntaxMsg

/-- Error message payload of an out-of-range integer parse
(`strconv.ErrRange`). -/
def outOfRangeMsg : GoStr := "value out of range".data

/-- Mirrors Go `strconv.Atoi` on a 64-bit platform: an optional sign followed
by one or more digits, failing with `strconv.ErrRange` when the signed value
does not fit in 64 bits (below -9223372036854775808 = -2^63 or above
9223372036854775807 = 2^63 - 1). -/
def atoiGo (cs : GoStr) : Except GoStr Int :=
  match cs with
  | [] => .error invalidSyntaxMsg
  | c :: rest =>
    if c = '-' then
      match atoiCore rest with
      | .ok n =>
        if n ≤ 9223372036854775808 then .ok (-(n : Int)) else .error outOfRangeMsg
      | .error e => .error e
    else if c = '+' then
      match atoiCore rest with
      | .ok n =>
        if n ≤ 9223372036854775807 then .ok (n : Int) else .error outOfRangeMsg
      | .error e => .error e
    else
      match atoiCore (c :: rest) with
      | .ok n =>
        if n ≤ 9223372036854775807 then .ok (n : Int) else .error outOfRangeMsg
      | .error e => .error e

/-- The value range of Go's 64-bit `int`: within it the model's unbounded
integers coincide with the machine integers of the source, and every value a
Go record can hold satisfies it. -/
def int64Bounded (n : Int) : Prop :=
  -9223372036854775808 ≤ n ∧ n ≤ 9223372036854775807

instance (n : Int) : Decidable (int64Bounded n) :=
  inferInstanceAs (Decidable (_ ∧ _))

/-- Big-endian decimal digit string of a natural number (`"0"` for zero). -/
def natToChars (n : Nat) : GoStr :=
  if n = 0 then ['0'] else ((Nat.digits 10 n).map digitChr).reverse

/-- Mirrors Go `strconv.Itoa`. -/
def itoaGo (n : Int) : GoStr :=
  if n < 0 then '-' :: natToChars n.natAbs else natToChars n.natAbs

/-- Modelled from the spec: the `"set "` line start marker stripped from each
content line of a relative display (shared repository constant `setLineStart`,
not part of the sampled sources). -/
def setLineStart : GoStr := "set ".data

/-- Modelled from the spec: the device's literal empty sentinel response used
by the existence oracle (shared repository constant `emptyWord`, not part of
the sampled sources). -/
def emptyWord : GoStr := "empty".data

/-- Modelled from the spec: name of the default routing instance (shared
repository constant `defaultWord`, not part of the sampled sources). -/
def defaultWord : GoStr := "default".data

/-- Modelled from the spec: the fixed separator token joining the key fields
of an external identity string (shared repository constant `idSeparator`, not
part of the sampled sources). -/
def idSeparator : GoStr := "_-_".data

/-- Modelled from the spec: protocol keyword for OSPF version 2 (shared
repository constant `opsfV2`, not part of the sampled sources). -/
def opsfV2 : GoStr := "ospf".data

/-- Modelled from the spec: protocol keyword for OSPF version 3 (shared
repository constant `ospfV3`, not part of the sampled sources). -/
def ospfV3 : GoStr := "ospf3".data

/-- Keyword of the ipsec policy proposals lines. -/
def proposalsKw : GoStr := "proposals ".data

/-- Keyword of the ipsec policy perfect-forward-secrecy lines. -/
def pfsKeysKw : GoStr := "perfect-forward-secrecy keys ".data

/-- Keyword of the ike proposal authentication-algorithm lines. -/
def authAlgKw : GoStr := "authentication-algorithm ".data

/-- Keyword of the ike proposal authentication-method lines. -/
def authMethKw : GoStr := "authentication-method ".data

/-- Keyword of the ike proposal dh-group lines. -/
def dhGroupKw : GoStr := "dh-group ".data

/-- Keyword the ike proposal encryption-algorithm case matches (without the
trailing space the corresponding trim uses). -/
def encAlgKw : GoStr := "encryption-algorithm".data

/-- Keyword the ike proposal encryption-algorithm trim strips. -/
def encAlgSpKw : GoStr := "encryption-algorithm ".data

/-- Keyword the ike proposal lifetime-seconds case matches (without the
trailing space the corresponding trim uses). -/
def lifetimeKw : GoStr := "lifetime-seconds".data

/-- Keyword the ike proposal lifetime-seconds trim strips. -/
def lifetimeSpKw : GoStr := "lifetime-seconds ".data

/-- Keyword of the ike policy mode lines. -/
def modeKw : GoStr := "mode ".data

/-- Keyword of the ike policy hexadecimal pre-shared-key lines. -/
def pskHexaKw : GoStr := "pre-shared-key hexadecimal ".data

/-- Keyword of the ike policy ascii-text pre-shared-key lines. -/
def pskAsciiKw : GoStr := "pre-shared-key ascii-text ".data

/-- Keyword of the ospf area interface lines. -/
def interfaceKw : GoStr := "interface ".data

/-- Keyword of the interface disable flag lines. -/
def disableKw : GoStr := "disable".data

/-- Keyword of the interface passive flag lines. -/
def passiveKw : GoStr := "passive".data

/-- Keyword of the interface metric lines. -/
def metricKw : GoStr := "metric ".data

/-- Keyword of the interface hello-interval lines. -/
def helloKw : GoStr := "hello-interval ".data

/-- Keyword of the interface retransmit-interval lines. -/
def retransKw : GoStr := "retransmit-interval ".data

/-- Keyword of the interface dead-interval lines. -/
def deadKw : GoStr := "dead-interval ".data

/-- Opening marker of the raw configuration output. -/
def confOpenMark : GoStr := "<configuration-output>".data

/-- Closing marker of the raw configuration output. -/
def confCloseMark : GoStr := "</configuration-output>".data

/-- Modelled from the spec: the external reversible secret decode
(`jdecode.Decode` from the junosdecode library, an external collaborator not
part of the repository): secrets produced by the device's obfuscator carry a
magic marker and are reversed; reversing any other string fails, which the
caller surfaces as a secret-decode error. -/
def jdecodeDecode (s : GoStr) : Except GoStr GoStr :=
  if hasPre s "$9$".data then .ok (trimPre s "$9$".data) else .error "invalid secret".data

/-- Option record of the `junos_security_ipsec_policy` resource
(`ipsecPolicyOptions` in the source). -/
structure ipsecPolicyOptions where
  name : GoStr
  pfsKeys : GoStr
  proposals : List GoStr
deriving DecidableEq

/-- Configuration lines built by `setIpsecPolicy`: the optional
perfect-forward-secrecy keys line first, then one `proposals` line per list
element, all under the `set security ipsec policy <name>` prefix. -/
def setIpsecPolicy (name pfsKeys : GoStr) (proposals : List GoStr) : List GoStr :=
  let setPre := "set security ipsec policy ".data ++ name
  (if pfsKeys ≠ [] then
    [setPre ++ " perfect-forward-secrecy keys ".data ++ pfsKeys]
   else []) ++
  proposals.map fun v => setPre ++ " proposals ".data ++ v

/-- Body of the `readIpsecPolicy` line loop for one line: `inl` continues
with the updated record (the `continue` on the opening marker and the
ignored unrecognized lines leave it unchanged), `inr` is the `break` on the
closing marker, returning the record as it stands. -/
def ipsecStep (item : GoStr) (cr : ipsecPolicyOptions) :
    ipsecPolicyOptions ⊕ ipsecPolicyOptions :=
  if containsSub item confOpenMark = true then .inl cr
  else if containsSub item confCloseMark = true then .inr cr
  else
    let itemTrim := trimPre item setLineStart
    if hasPre itemTrim proposalsKw = true then
      .inl { cr with proposals := cr.proposals ++ [trimPre itemTrim proposalsKw] }
    else if hasPre itemTrim pfsKeysKw = true then
      .inl { cr with pfsKeys := trimPre itemTrim pfsKeysKw }
    else .inl cr

/-- Line loop of `readIpsecPolicy`: runs `ipsecStep` over the lines, stopping
early when the step breaks. -/
def ipsecLoop : List GoStr → ipsecPolicyOptions → ipsecPolicyOptions
  | [], cr => cr
  | item :: rest, cr =>
    match ipsecStep item cr with
    | .inl cr2 => ipsecLoop rest cr2
    | .inr cr2 => cr2

/-- Parsing part of `readIpsecPolicy`, taking the raw text the `show
configuration ... | display set relative` command returned: the empty
sentinel yields the absent record (empty name), otherwise the line loop runs
over the split lines with the record's name set to the queried name. -/
def readIpsecPolicy (ipsecPolicy raw : GoStr) : ipsecPolicyOptions :=
  if raw = emptyWord then ⟨[], [], []⟩
  else ipsecLoop (goSplit '\n' raw) ⟨ipsecPolicy, [], []⟩

/-- Line staged by `delIpsecPolicy`. -/
def delIpsecPolicy (name : GoStr) : List GoStr :=
  ["delete security ipsec policy ".data ++ name]

/-- Existence oracle of the ipsec policy resource (`checkIpsecPolicyExists`),
applied to the raw result of its scoped `| display set` query: a transport
error propagates, the empty sentinel means absent, anything else means
present. -/
def checkIpsecPolicyExists (res : Except GoStr GoStr) : Except GoStr Bool :=
  match res with
  | .error e => .error e
  | .ok cfg => if cfg = emptyWord then .ok false else .ok true

/-- Option record of the `junos_security_ike_proposal` resource
(`ikeProposalOptions` in the source). -/
structure ikeProposalOptions where
  lifetimeSeconds : Int
  name : GoStr
  authenticationAlgorithm : GoStr
  authenticationMethod : GoStr
  dhGroup : GoStr
  encryptionAlgorithm : GoStr
deriving DecidableEq

/-- Configuration lines built by `setIkeProposal`: one line per non-empty
string field in declaration order, then the lifetime line when the value is
non-zero. -/
def setIkeProposal (name authenticationAlgorithm authenticationMethod dhGroup
    encryptionAlgorithm : GoStr) (lifetimeSeconds : Int) : List GoStr :=
  let setPre := "set security ike proposal ".data ++ name
  (if authenticationMethod ≠ [] then
    [setPre ++ " authentication-method ".data ++ authenticationMethod] else []) ++
  (if authenticationAlgorithm ≠ [] then
    [setPre ++ " authentication-algorithm ".data ++ authenticationAlgorithm] else []) ++
  (if dhGroup ≠ [] then [setPre ++ " dh-group ".data ++ dhGroup] else []) ++
  (if encryptionAlgorithm ≠ [] then
    [setPre ++ " encryption-algorithm ".data ++ encryptionAlgorithm] else []) ++
  (if lifetimeSeconds ≠ 0 then
    [setPre ++ " lifetime-seconds ".data ++ itoaGo lifetimeSeconds] else [])

/-- Error wrapper for a failed integer conversion inside a read loop
(`fmt.Errorf("failed to convert value from '%s' to integer : %w", ...)`). -/
def convErrMsg (itemTrim e : GoStr) : GoStr :=
  "failed to convert value from '".data ++ itemTrim ++ "' to integer : ".data ++ e

/-- Body of the `readIkeProposal` line loop for one line: marker skipping and
breaking as in the other read loops, then a first-match dispatch over the
five recognized keywords; the lifetime case parses its suffix as an integer
and aborts the read with a conversion error on failure. -/
def ikeProposalStep (item : GoStr) (cr : ikeProposalOptions) :
    ikeProposalOptions ⊕ (ikeProposalOptions × Option GoStr) :=
  if containsSub item confOpenMark = true then .inl cr
  else if containsSub item confCloseMark = true then .inr (cr, none)
  else
    let itemTrim := trimPre item setLineStart
    if hasPre itemTrim authAlgKw = true then
      .inl { cr with authenticationAlgorithm := trimPre itemTrim authAlgKw }
    else if hasPre itemTrim authMethKw = true then
      .inl { cr with authenticationMethod := trimPre itemTrim authMethKw }
    else if hasPre itemTrim dhGroupKw = true then
      .inl { cr with dhGroup := trimPre itemTrim dhGroupKw }
    else if hasPre itemTrim encAlgKw = true then
      .inl { cr with encryptionAlgorithm := trimPre itemTrim encAlgSpKw }
    else if hasPre itemTrim lifetimeKw = true then
      match atoiGo (trimPre itemTrim lifetimeSpKw) with
      | .ok n => .inl { cr with lifetimeSeconds := n }
      | .error e => .inr (cr, some (convErrMsg itemTrim e))
    else .inl cr

/-- Line loop of `readIkeProposal`: runs `ikeProposalStep` over the lines,
stopping early on the closing marker or on a conversion error. -/
def ikeProposalLoop : List GoStr → ikeProposalOptions → ikeProposalOptions × Option GoStr
  | [], cr => (cr, none)
  | item :: rest, cr =>
    match ikeProposalStep item cr with
    | .inl cr2 => ikeProposalLoop rest cr2
    | .inr r => r

/-- Parsing part of `readIkeProposal`, over the raw text of its scoped
relative display query; returns the record together with the optional
decode error, exactly as the Go function returns `(confRead, err)`. -/
def readIkeProposal (ikeProposal raw : GoStr) : ikeProposalOptions × Option GoStr :=
  if raw = emptyWord then (⟨0, [], [], [], [], []⟩, none)
  else ikeProposalLoop (goSplit '\n' raw) ⟨0, ikeProposal, [], [], [], []⟩

/-- Line staged by `delIkeProposal`. -/
def delIkeProposal (name : GoStr) : List GoStr :=
  ["delete security ike proposal ".data ++ name]

/-- Existence oracle of the ike proposal resource, applied to the raw result
of its scoped query. -/
def checkIkeProposalExists (res : Except GoStr GoStr) : Except GoStr Bool :=
  match res with
  | .error e => .error e
  | .ok cfg => if cfg = emptyWord then .ok false else .ok true

/-- Option record of the `junos_security_ike_policy` resource
(`ikePolicyOptions` in the source). -/
structure ikePolicyOptions where
  name : GoStr
  mode : GoStr
  preSharedKeyText : GoStr
  preSharedKeyHexa : GoStr
  proposals : List GoStr
deriving DecidableEq

/-- Configuration lines built by `setIkePolicy`: a non-empty mode must be
`main` or `aggressive` (otherwise the build fails with an unknown-mode
error), then the proposals lines, then the optional plaintext pre-shared-key
lines.  The Go function both builds the lines and stages them; the staging
call is modelled by the session event in the lifecycle functions. -/
def setIkePolicy (name mode : GoStr) (proposals : List GoStr)
    (preSharedKeyText preSharedKeyHexa : GoStr) : Except GoStr (List GoStr) :=
  let setPre := "set security ike policy ".data ++ name
  if mode ≠ [] ∧ mode ≠ "main".data ∧ mode ≠ "aggressive".data then
    .error ("unknown ike mode ".data ++ mode)
  else
    .ok ((if mode ≠ [] then [setPre ++ " mode ".data ++ mode] else []) ++
      proposals.map (fun v => setPre ++ " proposals ".data ++ v) ++
      (if preSharedKeyText ≠ [] then
        [setPre ++ " pre-shared-key ascii-text ".data ++ preSharedKeyText] else []) ++
      (if preSharedKeyHexa ≠ [] then
        [setPre ++ " pre-shared-key hexadecimal ".data ++ preSharedKeyHexa] else []))

/-- Error wrapper for a failed secret reversal of the hexadecimal
pre-shared key. -/
def hexaDecodeErrMsg (e : GoStr) : GoStr :=
  "failed to decode pre-shared-key hexadecimal : ".data ++ e

/-- Error wrapper for a failed secret reversal of the ascii-text
pre-shared key. -/
def asciiDecodeErrMsg (e : GoStr) : GoStr :=
  "failed to decode pre-shared-key ascii-text : ".data ++ e

/-- Body of the `readIkePolicy` line loop for one line: mode and proposals
are copied verbatim; the two pre-shared-key forms strip surrounding quotes
and reverse the device's secret obfuscation via `jdecodeDecode`, aborting
the read when the reversal fails. -/
def ikePolicyStep (item : GoStr) (cr : ikePolicyOptions) :
    ikePolicyOptions ⊕ (ikePolicyOptions × Option GoStr) :=
  if containsSub item confOpenMark = true then .inl cr
  else if containsSub item confCloseMark = true then .inr (cr, none)
  else
    let itemTrim := trimPre item setLineStart
    if hasPre itemTrim modeKw = true then
      .inl { cr with mode := trimPre itemTrim modeKw }
    else if hasPre itemTrim proposalsKw = true then
      .inl { cr with proposals := cr.proposals ++ [trimPre itemTrim proposalsKw] }
    else if hasPre itemTrim pskHexaKw = true then
      match jdecodeDecode
          (goTrimQuotes (trimPre itemTrim pskHexaKw)) with
      | .ok v => .inl { cr with preSharedKeyHexa := v }
      | .error e => .inr (cr, some (hexaDecodeErrMsg e))
    else if hasPre itemTrim pskAsciiKw = true then
      match jdecodeDecode
          (goTrimQuotes (trimPre itemTrim pskAsciiKw)) with
      | .ok v => .inl { cr with preSharedKeyText := v }
      | .error e => .inr (cr, some (asciiDecodeErrMsg e))
    else .inl cr

/-- Line loop of `readIkePolicy`: runs `ikePolicyStep` over the lines,
stopping early on the closing marker or on a secret-decode error. -/
def ikePolicyLoop : List GoStr → ikePolicyOptions → ikePolicyOptions × Option GoStr
  | [], cr => (cr, none)
  | item :: rest, cr =>
    match ikePolicyStep item cr with
    | .inl cr2 => ikePolicyLoop rest cr2
    | .inr r => r

/-- Parsing part of `readIkePolicy`, over the raw text of its scoped relative
display query. -/
def readIkePolicy (ikePolicy raw : GoStr) : ikePolicyOptions × Option GoStr :=
  if raw = emptyWord then (⟨[], [], [], [], []⟩, none)
  else ikePolicyLoop (goSplit '\n' raw) ⟨ikePolicy, [], [], [], []⟩

/-- Line staged by `delIkePolicy`. -/
def delIkePolicy (name : GoStr) : List GoStr :=
  ["delete security ike policy ".data ++ name]

/-- Existence oracle of the ike policy resource, applied to the raw result of
its scoped query. -/
def checkIkePolicyExists (res : Except GoStr GoStr) : Except GoStr Bool :=
  match res with
  | .error e => .error e
  | .ok cfg => if cfg = emptyWord then .ok false else .ok true

/-- One interface sub-record of the ospf area repeated `interface` block;
the schema fills every field, unset sub-fields hold the zero value. -/
structure ospfInterface where
  name : GoStr
  disable : Bool
  passive : Bool
  metric : Int
  helloInterval : Int
  retransmitInterval : Int
  deadInterval : Int
deriving DecidableEq

/-- Option record of the `junos_ospf_area` resource (`ospfAreaOptions` in the
source; `interFace` keeps the source's spelling). -/
structure ospfAreaOptions where
  areaID : GoStr
  routingInstance : GoStr
  version : GoStr
  interFace : List ospfInterface
deriving DecidableEq

/-- Path prefix used by `setOspfArea` (including the `set ` statement keyword
and the trailing space), depending on the routing instance and the OSPF
version keyword. -/
def ospfSetPre (areaID version routingInstance : GoStr) : GoStr :=
  let ospfVersion := if version = "v3".data then ospfV3 else opsfV2
  if routingInstance = defaultWord then
    setLineStart ++ "protocols ".data ++ ospfVersion ++ " area ".data ++ areaID ++ [' ']
  else
    setLineStart ++ "routing-instances ".data ++ routingInstance ++ " protocols ".data ++
      ospfVersion ++ " area ".data ++ areaID ++ [' ']

/-- Configuration lines built by `setOspfArea`: for each interface in list
order, one line per explicitly-set sub-field (booleans emitted iff true,
integers iff non-zero), each under `<prefix>interface <name> `; no other
lines are produced. -/
def setOspfArea (areaID version routingInstance : GoStr)
    (interFace : List ospfInterface) : List GoStr :=
  let setPre := ospfSetPre areaID version routingInstance
  interFace.flatMap fun i =>
    let setPreInt := setPre ++ interfaceKw ++ i.name ++ [' ']
    (if i.disable = true then [setPreInt ++ disableKw] else []) ++
    (if i.passive = true then [setPreInt ++ passiveKw] else []) ++
    (if i.metric ≠ 0 then [setPreInt ++ metricKw ++ itoaGo i.metric] else []) ++
    (if i.helloInterval ≠ 0 then
      [setPreInt ++ helloKw ++ itoaGo i.helloInterval] else []) ++
    (if i.retransmitInterval ≠ 0 then
      [setPreInt ++ retransKw ++ itoaGo i.retransmitInterval] else []) ++
    (if i.deadInterval ≠ 0 then
      [setPreInt ++ deadKw ++ itoaGo i.deadInterval] else [])

/-- An interface sub-record has at least one explicitly-set sub-field: these
are exactly the conditions under which `setOspfArea` emits lines for it. -/
def ospfIfaceHasField (i : ospfInterface) : Bool :=
  i.disable || i.passive || i.metric != 0 || i.helloInterval != 0 ||
    i.retransmitInterval != 0 || i.deadInterval != 0

/-- Modelled from the spec: the shared repeated-block merge helper
(`copyAndRemoveItemMapList`, not part of the sampled sources).  It looks the
fresh sub-record's key up in the accumulated list; at the first entry with
the same key it hands that entry back (every stored field of the existing
sub-record replaces the fresh defaults) and removes it from the list, so
that the caller re-appends the merged record; when the key is absent the
fresh record and the unchanged list are returned. -/
def copyAndRemoveItemMapList (m : ospfInterface) :
    List ospfInterface → ospfInterface × List ospfInterface
  | [] => (m, [])
  | e :: rest =>
    if e.name = m.name then (e, rest)
    else
      let p := copyAndRemoveItemMapList m rest
      (p.1, e :: p.2)

/-- Fresh interface sub-record with every non-key field at its zero value. -/
def freshOspfInterface (name : GoStr) : ospfInterface :=
  ⟨name, false, false, 0, 0, 0, 0⟩

/-- Key extracted from one raw line by the interface branch of the ospf read
loop: the first space-separated token after `interface `, or `none` when the
line is not a recognized interface line. -/
def ospfIfaceNameOf (item : GoStr) : Option GoStr :=
  let itemTrim := trimPre item setLineStart
  if hasPre itemTrim interfaceKw = true then
    some ((goSplit ' ' (trimPre itemTrim interfaceKw)).headD [])
  else none

/-- Body of the `readOspfArea` line loop over the accumulated interface list:
each recognized `interface ` line extracts the name (first space-separated token),
merges with any existing sub-record of that name, applies the single
sub-field carried by the line (if any), and appends the merged record at the
end of the list; an integer conversion failure aborts the read, dropping the
in-flight record (its old occurrence was already removed). -/
def ospfAreaStep (item : GoStr) (acc : List ospfInterface) :
    List ospfInterface ⊕ (List ospfInterface × Option GoStr) :=
  if containsSub item confOpenMark = true then .inl acc
  else if containsSub item confCloseMark = true then .inr (acc, none)
  else
    match ospfIfaceNameOf item with
    | none => .inl acc
    | some nameTok =>
      let itemTrim := trimPre item setLineStart
      let itemTrimInterface :=
        trimPre itemTrim (interfaceKw ++ nameTok ++ [' '])
      let p := copyAndRemoveItemMapList (freshOspfInterface nameTok) acc
      if hasPre itemTrimInterface disableKw = true then
        .inl (p.2 ++ [{ p.1 with disable := true }])
      else if hasPre itemTrimInterface passiveKw = true then
        .inl (p.2 ++ [{ p.1 with passive := true }])
      else if hasPre itemTrimInterface metricKw = true then
        match atoiGo (trimPre itemTrimInterface metricKw) with
        | .ok n => .inl (p.2 ++ [{ p.1 with metric := n }])
        | .error e => .inr (p.2, some (convErrMsg itemTrimInterface e))
      else if hasPre itemTrimInterface helloKw = true then
        match atoiGo (trimPre itemTrimInterface helloKw) with
        | .ok n => .inl (p.2 ++ [{ p.1 with helloInterval := n }])
        | .error e => .inr (p.2, some (convErrMsg itemTrimInterface e))
      else if hasPre itemTrimInterface retransKw = true then
        match atoiGo (trimPre itemTrimInterface retransKw) with
        | .ok n => .inl (p.2 ++ [{ p.1 with retransmitInterval := n }])
        | .error e => .inr (p.2, some (convErrMsg itemTrimInterface e))
      else if hasPre itemTrimInterface deadKw = true then
        match atoiGo (trimPre itemTrimInterface deadKw) with
        | .ok n => .inl (p.2 ++ [{ p.1 with deadInterval := n }])
        | .error e => .inr (p.2, some (convErrMsg itemTrimInterface e))
      else .inl (p.2 ++ [p.1])

/-- Line loop of `readOspfArea`: runs `ospfAreaStep` over the lines, stopping
early on the closing marker or on a conversion error. -/
def ospfAreaLoop : List GoStr → List ospfInterface → List ospfInterface × Option GoStr
  | [], acc => (acc, none)
  | item :: rest, acc =>
    match ospfAreaStep item acc with
    | .inl acc2 => ospfAreaLoop rest acc2
    | .inr r => r

/-- Keys of the interface lines a raw line stream actually submits to the
merge, in stream order: opening-marker lines are skipped, everything from
the first closing-marker line on is discarded, and non-interface lines
contribute nothing. -/
def ospfIfaceNamesOf : List GoStr → List GoStr
  | [] => []
  | item :: rest =>
    if containsSub item confOpenMark = true then ospfIfaceNamesOf rest
    else if containsSub item confCloseMark = true then []
    else
      match ospfIfaceNameOf item with
      | some nm => nm :: ospfIfaceNamesOf rest
      | none => ospfIfaceNamesOf rest

/-- Last-appearance order of a key sequence: each key moves to the end of
the list when it reappears. -/
def lastAppearOrder (ns : List GoStr) : List GoStr :=
  ns.foldl (fun acc n => acc.filter (fun m => m != n) ++ [n]) []

/-- Parsing part of `readOspfArea`, over the raw text of its scoped relative
display query: the empty sentinel yields the absent record, otherwise the
identifying fields are copied from the query arguments and the interface
loop runs over the split lines. -/
def readOspfArea (areaID version routingInstance raw : GoStr) :
    ospfAreaOptions × Option GoStr :=
  if raw = emptyWord then (⟨[], [], [], []⟩, none)
  else
    let p := ospfAreaLoop (goSplit '\n' raw) []
    (⟨areaID, routingInstance, version, p.1⟩, p.2)

/-- Line staged by `delOspfArea`. -/
def delOspfArea (areaID version routingInstance : GoStr) : List GoStr :=
  let ospfVersion := if version = "v3".data then ospfV3 else opsfV2
  if routingInstance = defaultWord then
    ["delete protocols ".data ++ ospfVersion ++ " area ".data ++ areaID]
  else
    ["delete routing-instances ".data ++ routingInstance ++ " protocols ".data ++
      ospfVersion ++ " area ".data ++ areaID]

/-- Existence oracle of the ospf area resource, applied to the raw result of
its scoped query (the query string differs between routing instances, the
sentinel handling does not). -/
def checkOspfAreaExists (res : Except GoStr GoStr) : Except GoStr Bool :=
  match res with
  | .error e => .error e
  | .ok cfg => if cfg = emptyWord then .ok false else .ok true

/-- Lines of a raw stream that a read loop actually examines: lines holding
the opening marker are skipped and everything from the first line holding
the closing marker (but not the opening one) on is cut off. -/
def processedLines : List GoStr → List GoStr
  | [] => []
  | item :: rest =>
    if containsSub item confOpenMark = true then processedLines rest
    else if containsSub item confCloseMark = true then []
    else item :: processedLines rest

/-- A line the ike proposal read loop aborts on: it reaches the
lifetime-seconds case and its suffix fails the strict integer parse. -/
def ikeProposalBadLine (item : GoStr) : Bool :=
  let t := trimPre item setLineStart
  hasPre t lifetimeKw &&
    (match atoiGo (trimPre t lifetimeSpKw) with
     | .ok _ => false
     | .error _ => true)

/-- A line the ike policy read loop aborts on: it reaches one of the two
pre-shared-key cases and the secret reversal of its (quote-stripped) payload
fails. -/
def ikePolicyBadLine (item : GoStr) : Bool :=
  let t := trimPre item setLineStart
  (hasPre t pskHexaKw &&
    (match jdecodeDecode (goTrimQuotes (trimPre t pskHexaKw)) with
     | .ok _ => false
     | .error _ => true)) ||
  (hasPre t pskAsciiKw &&
    (match jdecodeDecode (goTrimQuotes (trimPre t pskAsciiKw)) with
     | .ok _ => false
     | .error _ => true))

/-- A line the ospf area read loop aborts on: a recognized interface line
whose sub-field is one of the four interval/metric keywords with a suffix
failing the strict integer parse. -/
def ospfAreaBadLine (item : GoStr) : Bool :=
  match ospfIfaceNameOf item with
  | none => false
  | some nameTok =>
    let t2 := trimPre (trimPre item setLineStart) (interfaceKw ++ nameTok ++ [' '])
    (hasPre t2 metricKw &&
      (match atoiGo (trimPre t2 metricKw) with
       | .ok _ => false
       | .error _ => true)) ||
    (hasPre t2 helloKw &&
      (match atoiGo (trimPre t2 helloKw) with
       | .ok _ => false
       | .error _ => true)) ||
    (hasPre t2 retransKw &&
      (match atoiGo (trimPre t2 retransKw) with
       | .ok _ => false
       | .error _ => true)) ||
    (hasPre t2 deadKw &&
      (match atoiGo (trimPre t2 deadKw) with
       | .ok _ => false
       | .error _ => true))

/-- A line matching one of the five keywords of the ike proposal read loop. -/
def ikeProposalLineRecognized (item : GoStr) : Bool :=
  let t := trimPre item setLineStart
  hasPre t authAlgKw || hasPre t authMethKw ||
    hasPre t dhGroupKw || hasPre t encAlgKw ||
    hasPre t lifetimeKw

/-- A line matching one of the four keywords of the ike policy read loop. -/
def ikePolicyLineRecognized (item : GoStr) : Bool :=
  let t := trimPre item setLineStart
  hasPre t modeKw || hasPre t proposalsKw ||
    hasPre t pskHexaKw || hasPre t pskAsciiKw

/-- Session events a lifecycle operation performs against the device, in
order: acquiring the configuration lock, staging a list of lines
(`configSet`), committing with a description, rolling back staged lines
(`configClear`), and assigning the external identity (`d.SetId`).  The
existence-oracle read queries are modelled through the environment below
rather than as events. -/
inductive Event where
  | configLock : Event
  | configSet : List GoStr → Event
  | commitConf : GoStr → Event
  | configClear : Event
  | setId : GoStr → Event
deriving DecidableEq

/-- Environment of device responses consumed by one lifecycle operation, in
call order: session start (error or success), the device model and the
security-compatibility answer, the raw response of the pre-mutation
existence query, the results of the first and second `configSet` calls, the
commit result, and the raw response of the post-commit existence query.
Fields an operation does not reach are simply unused. -/
structure SessEnv where
  startErr : Option GoStr
  model : GoStr
  compatible : Bool
  cmdRes1 : Except GoStr GoStr
  setErr1 : Option GoStr
  setErr2 : Option GoStr
  commitErr : Option GoStr
  cmdRes2 : Except GoStr GoStr

/-- Outcome of a lifecycle operation: the ordered event list and either an
error or normal completion (for create, completion means reaching the final
read that populates the record). -/
abbrev OpResult := List Event × Except GoStr Unit

/-- Error of an incompatible device for the ipsec policy resource. -/
def ipsecNotCompatibleMsg (model : GoStr) : GoStr :=
  "security ipsec policy not compatible with Junos device ".data ++ model

/-- Duplicate-create guard error of the ipsec policy resource. -/
def ipsecAlreadyExistsMsg (name : GoStr) : GoStr :=
  "security ipsec policy ".data ++ name ++ " already exists".data

/-- Commit-verification error of the ipsec policy resource. -/
def ipsecNotExistsAfterCommitMsg (name : GoStr) : GoStr :=
  "security ipsec policy ".data ++ name ++
    " not exists after commit => check your config".data

/-- The create operation of the ipsec policy resource
(`resourceIpsecPolicyCreate`): session start, compatibility gate, lock,
existence guard, staging, commit, post-commit verification, identity
assignment; every failure between lock and commit rolls staged lines back
with `configClear` before surfacing. -/
def resourceIpsecPolicyCreate (name pfsKeys : GoStr) (proposals : List GoStr)
    (env : SessEnv) : OpResult :=
  match env.startErr with
  | some e => ([], .error e)
  | none =>
    if env.compatible = false then ([], .error (ipsecNotCompatibleMsg env.model))
    else
      match checkIpsecPolicyExists env.cmdRes1 with
      | .error e => ([.configLock, .configClear], .error e)
      | .ok true => ([.configLock, .configClear], .error (ipsecAlreadyExistsMsg name))
      | .ok false =>
        let lines := setIpsecPolicy name pfsKeys proposals
        match env.setErr1 with
        | some e => ([.configLock, .configSet lines, .configClear], .error e)
        | none =>
          let evc : List Event :=
            [.configLock, .configSet lines,
             .commitConf "create resource junos_security_ipsec_policy".data]
          match env.commitErr with
          | some e => (evc ++ [.configClear], .error e)
          | none =>
            match checkIpsecPolicyExists env.cmdRes2 with
            | .error e => (evc, .error e)
            | .ok true => (evc ++ [.setId name], .ok ())
            | .ok false => (evc, .error (ipsecNotExistsAfterCommitMsg name))

/-- The update operation of the ipsec policy resource
(`resourceIpsecPolicyUpdate`): lock, delete the whole subtree, restage the
full new line set, commit; every failure under the lock rolls back before
surfacing. -/
def resourceIpsecPolicyUpdate (name pfsKeys : GoStr) (proposals : List GoStr)
    (env : SessEnv) : OpResult :=
  match env.startErr with
  | some e => ([], .error e)
  | none =>
    match env.setErr1 with
    | some e => ([.configLock, .configSet (delIpsecPolicy name), .configClear], .error e)
    | none =>
      let lines := setIpsecPolicy name pfsKeys proposals
      match env.setErr2 with
      | some e =>
        ([.configLock, .configSet (delIpsecPolicy name), .configSet lines, .configClear],
         .error e)
      | none =>
        let evc : List Event :=
          [.configLock, .configSet (delIpsecPolicy name), .configSet lines,
           .commitConf "update resource junos_security_ipsec_policy".data]
        match env.commitErr with
        | some e => (evc ++ [.configClear], .error e)
        | none => (evc, .ok ())

/-- The delete operation of the ipsec policy resource
(`resourceIpsecPolicyDelete`): lock, stage the delete line, commit; failures
under the lock roll back before surfacing. -/
def resourceIpsecPolicyDelete (name : GoStr) (env : SessEnv) : OpResult :=
  match env.startErr with
  | some e => ([], .error e)
  | none =>
    match env.setErr1 with
    | some e => ([.configLock, .configSet (delIpsecPolicy name), .configClear], .error e)
    | none =>
      let evc : List Event :=
        [.configLock, .configSet (delIpsecPolicy name),
         .commitConf "delete resource junos_security_ipsec_policy".data]
      match env.commitErr with
      | some e => (evc ++ [.configClear], .error e)
      | none => (evc, .ok ())

/-- Error of an incompatible device for the ike proposal resource. -/
def ikeProposalNotCompatibleMsg (model : GoStr) : GoStr :=
  "security ike proposal not compatible with Junos device ".data ++ model

/-- Duplicate-create guard error of the ike proposal resource. -/
def ikeProposalAlreadyExistsMsg (name : GoStr) : GoStr :=
  "security ike proposal ".data ++ name ++ " already exists".data

/-- Commit-verification error of the ike proposal resource. -/
def ikeProposalNotExistsAfterCommitMsg (name : GoStr) : GoStr :=
  "security ike proposal ".data ++ name ++
    " not exists after commit => check your config".data

/-- The create operation of the ike proposal resource
(`resourceIkeProposalCreate`). -/
def resourceIkeProposalCreate (name authenticationAlgorithm authenticationMethod
    dhGroup encryptionAlgorithm : GoStr) (lifetimeSeconds : Int)
    (env : SessEnv) : OpResult :=
  match env.startErr with
  | some e => ([], .error e)
  | none =>
    if env.compatible = false then ([], .error (ikeProposalNotCompatibleMsg env.model))
    else
      match checkIkeProposalExists env.cmdRes1 with
      | .error e => ([.configLock, .configClear], .error e)
      | .ok true => ([.configLock, .configClear], .error (ikeProposalAlreadyExistsMsg name))
      | .ok false =>
        let lines := setIkeProposal name authenticationAlgorithm authenticationMethod
          dhGroup encryptionAlgorithm lifetimeSeconds
        match env.setErr1 with
        | some e => ([.configLock, .configSet lines, .configClear], .error e)
        | none =>
          let evc : List Event :=
            [.configLock, .configSet lines,
             .commitConf "create resource junos_security_ike_proposal".data]
          match env.commitErr with
          | some e => (evc ++ [.configClear], .error e)
          | none =>
            match checkIkeProposalExists env.cmdRes2 with
            | .error e => (evc, .error e)
            | .ok true => (evc ++ [.setId name], .ok ())
            | .ok false => (evc, .error (ikeProposalNotExistsAfterCommitMsg name))

/-- The update operation of the ike proposal resource
(`resourceIkeProposalUpdate`). -/
def resourceIkeProposalUpdate (name authenticationAlgorithm authenticationMethod
    dhGroup encryptionAlgorithm : GoStr) (lifetimeSeconds : Int)
    (env : SessEnv) : OpResult :=
  match env.startErr with
  | some e => ([], .error e)
  | none =>
    match env.setErr1 with
    | some e => ([.configLock, .configSet (delIkeProposal name), .configClear], .error e)
    | none =>
      let lines := setIkeProposal name authenticationAlgorithm authenticationMethod
        dhGroup encryptionAlgorithm lifetimeSeconds
      match env.setErr2 with
      | some e =>
        ([.configLock, .configSet (delIkeProposal name), .configSet lines, .configClear],
         .error e)
      | none =>
        let evc : List Event :=
          [.configLock, .configSet (delIkeProposal name), .configSet lines,
           .commitConf "update resource junos_security_ike_proposal".data]
        match env.commitErr with
        | some e => (evc ++ [.configClear], .error e)
        | none => (evc, .ok ())

/-- The delete operation of the ike proposal resource
(`resourceIkeProposalDelete`). -/
def resourceIkeProposalDelete (name : GoStr) (env : SessEnv) : OpResult :=
  match env.startErr with
  | some e => ([], .error e)
  | none =>
    match env.setErr1 with
    | some e => ([.configLock, .configSet (delIkeProposal name), .configClear], .error e)
    | none =>
      let evc : List Event :=
        [.configLock, .configSet (delIkeProposal name),
         .commitConf "delete resource junos_security_ike_proposal".data]
      match env.commitErr with
      | some e => (evc ++ [.configClear], .error e)
      | none => (evc, .ok ())

/-- Error of an incompatible device for the ike policy resource. -/
def ikePolicyNotCompatibleMsg (model : GoStr) : GoStr :=
  "security ike policy not compatible with Junos device ".data ++ model

/-- Duplicate-create guard error of the ike policy resource. -/
def ikePolicyAlreadyExistsMsg (name : GoStr) : GoStr :=
  "security ike policy ".data ++ name ++ " already exists".data

/-- Commit-verification error of the ike policy resource. -/
def ikePolicyNotExistsAfterCommitMsg (name : GoStr) : GoStr :=
  "security ike policy ".data ++ name ++
    " not exists after commit => check your config".data

/-- The create operation of the ike policy resource
(`resourceIkePolicyCreate`); its staging step can also fail on the
mode validation inside `setIkePolicy`, before anything is staged. -/
def resourceIkePolicyCreate (name mode : GoStr) (proposals : List GoStr)
    (preSharedKeyText preSharedKeyHexa : GoStr) (env : SessEnv) : OpResult :=
  match env.startErr with
  | some e => ([], .error e)
  | none =>
    if env.compatible = false then ([], .error (ikePolicyNotCompatibleMsg env.model))
    else
      match checkIkePolicyExists env.cmdRes1 with
      | .error e => ([.configLock, .configClear], .error e)
      | .ok true => ([.configLock, .configClear], .error (ikePolicyAlreadyExistsMsg name))
      | .ok false =>
        match setIkePolicy name mode proposals preSharedKeyText preSharedKeyHexa with
        | .error e => ([.configLock, .configClear], .error e)
        | .ok lines =>
          match env.setErr1 with
          | some e => ([.configLock, .configSet lines, .configClear], .error e)
          | none =>
            let evc : List Event :=
              [.configLock, .configSet lines,
               .commitConf "create resource junos_security_ike_policy".data]
            match env.commitErr with
            | some e => (evc ++ [.configClear], .error e)
            | none =>
              match checkIkePolicyExists env.cmdRes2 with
              | .error e => (evc, .error e)
              | .ok true => (evc ++ [.setId name], .ok ())
              | .ok false => (evc, .error (ikePolicyNotExistsAfterCommitMsg name))

/-- The update operation of the ike policy resource
(`resourceIkePolicyUpdate`). -/
def resourceIkePolicyUpdate (name mode : GoStr) (proposals : List GoStr)
    (preSharedKeyText preSharedKeyHexa : GoStr) (env : SessEnv) : OpResult :=
  match env.startErr with
  | some e => ([], .error e)
  | none =>
    match env.setErr1 with
    | some e => ([.configLock, .configSet (delIkePolicy name), .configClear], .error e)
    | none =>
      match setIkePolicy name mode proposals preSharedKeyText preSharedKeyHexa with
      | .error e => ([.configLock, .configSet (delIkePolicy name), .configClear], .error e)
      | .ok lines =>
        match env.setErr2 with
        | some e =>
          ([.configLock, .configSet (delIkePolicy name), .configSet lines, .configClear],
           .error e)
        | none =>
          let evc : List Event :=
            [.configLock, .configSet (delIkePolicy name), .configSet lines,
             .commitConf "update resource junos_security_ike_policy".data]
          match env.commitErr with
          | some e => (evc ++ [.configClear], .error e)
          | none => (evc, .ok ())

/-- The delete operation of the ike policy resource
(`resourceIkePolicyDelete`). -/
def resourceIkePolicyDelete (name : GoStr) (env : SessEnv) : OpResult :=
  match env.startErr with
  | some e => ([], .error e)
  | none =>
    match env.setErr1 with
    | some e => ([.configLock, .configSet (delIkePolicy name), .configClear], .error e)
    | none =>
      let evc : List Event :=
        [.configLock, .configSet (delIkePolicy name),
         .commitConf "delete resource junos_security_ike_policy".data]
      match env.commitErr with
      | some e => (evc ++ [.configClear], .error e)
      | none => (evc, .ok ())

/-- Duplicate-create guard error of the ospf area resource. -/
def ospfAlreadyExistsMsg (areaID version routingInstance : GoStr) : GoStr :=
  "ospf ".data ++ version ++ " area ".data ++ areaID ++
    " already exists in routing instance ".data ++ routingInstance

/-- Commit-verification error of the ospf area resource. -/
def ospfNotExistsAfterCommitMsg (areaID version routingInstance : GoStr) : GoStr :=
  "ospf ".data ++ version ++ " area ".data ++ areaID ++ " in routing instance ".data ++
    routingInstance ++ " not exists after commit => check your config".data

/-- External identity assigned by the ospf area create: the three key fields
joined by the id separator. -/
def ospfAreaId (areaID version routingInstance : GoStr) : GoStr :=
  areaID ++ idSeparator ++ version ++ idSeparator ++ routingInstance

/-- The create operation of the ospf area resource (`resourceOspfAreaCreate`);
this resource has no security-compatibility gate. -/
def resourceOspfAreaCreate (areaID version routingInstance : GoStr)
    (interFace : List ospfInterface) (env : SessEnv) : OpResult :=
  match env.startErr with
  | some e => ([], .error e)
  | none =>
    match checkOspfAreaExists env.cmdRes1 with
    | .error e => ([.configLock, .configClear], .error e)
    | .ok true =>
      ([.configLock, .configClear],
       .error (ospfAlreadyExistsMsg areaID version routingInstance))
    | .ok false =>
      let lines := setOspfArea areaID version routingInstance interFace
      match env.setErr1 with
      | some e => ([.configLock, .configSet lines, .configClear], .error e)
      | none =>
        let evc : List Event :=
          [.configLock, .configSet lines, .commitConf "create resource junos_ospf_area".data]
        match env.commitErr with
        | some e => (evc ++ [.configClear], .error e)
        | none =>
          match checkOspfAreaExists env.cmdRes2 with
          | .error e => (evc, .error e)
          | .ok true => (evc ++ [.setId (ospfAreaId areaID version routingInstance)], .ok ())
          | .ok false =>
            (evc, .error (ospfNotExistsAfterCommitMsg areaID version routingInstance))

/-- The update operation of the ospf area resource (`resourceOspfAreaUpdate`). -/
def resourceOspfAreaUpdate (areaID version routingInstance : GoStr)
    (interFace : List ospfInterface) (env : SessEnv) : OpResult :=
  match env.startErr with
  | some e => ([], .error e)
  | none =>
    match env.setErr1 with
    | some e =>
      ([.configLock, .configSet (delOspfArea areaID version routingInstance), .configClear],
       .error e)
    | none =>
      let lines := setOspfArea areaID version routingInstance interFace
      match env.setErr2 with
      | some e =>
        ([.configLock, .configSet (delOspfArea areaID version routingInstance),
          .configSet lines, .configClear], .error e)
      | none =>
        let evc : List Event :=
          [.configLock, .configSet (delOspfArea areaID version routingInstance),
           .configSet lines, .commitConf "update resource junos_ospf_area".data]
        match env.commitErr with
        | some e => (evc ++ [.configClear], .error e)
        | none => (evc, .ok ())

/-- The delete operation of the ospf area resource (`resourceOspfAreaDelete`). -/
def resourceOspfAreaDelete (areaID version routingInstance : GoStr)
    (env : SessEnv) : OpResult :=
  match env.startErr with
  | some e => ([], .error e)
  | none =>
    match env.setErr1 with
    | some e =>
      ([.configLock, .configSet (delOspfArea areaID version routingInstance), .configClear],
       .error e)
    | none =>
      let evc : List Event :=
        [.configLock, .configSet (delOspfArea areaID version routingInstance),
         .commitConf "delete resource junos_ospf_area".data]
      match env.commitErr with
      | some e => (evc ++ [.configClear], .error e)
      | none => (evc, .ok ())

/-- Relative view of one staged line, following the round-trip claim's
words: the object's own path prefix is stripped and the `set ` statement
keyword kept, as in the device's `display set relative` output that the
read parsers consume. -/
def relLine (setPre line : GoStr) : GoStr := setLineStart ++ trimPre line setPre

/-- Relative view of a staged line set, joined into the raw multi-line text
a scoped read query would return. -/
def relFeed (setPre : GoStr) (lines : List GoStr) : GoStr :=
  goJoin '\n' (lines.map (relLine setPre))

/-- A field value that survives the line codec: it contains neither a line
break nor the marker character. -/
def cleanVal (v : GoStr) : Prop := '\n' ∉ v ∧ '<' ∉ v

instance (v : GoStr) : Decidable (cleanVal v) :=
  inferInstanceAs (Decidable ('\n' ∉ v ∧ '<' ∉ v))

/-- One explicitly-set sub-field of an ospf interface, with its value. -/
inductive OspfField where
  | disable : OspfField
  | passive : OspfField
  | metric : Int → OspfField
  | hello : Int → OspfField
  | retrans : Int → OspfField
  | dead : Int → OspfField

/-- Leaf clause emitted for one interface sub-field. -/
def ospfFieldSuffix : OspfField → GoStr
  | .disable => disableKw
  | .passive => passiveKw
  | .metric n => metricKw ++ itoaGo n
  | .hello n => helloKw ++ itoaGo n
  | .retrans n => retransKw ++ itoaGo n
  | .dead n => deadKw ++ itoaGo n

/-- Record update performed by the read loop for one interface sub-field. -/
def applyOspfField (f : OspfField) (r : ospfInterface) : ospfInterface :=
  match f with
  | .disable => { r with disable := true }
  | .passive => { r with passive := true }
  | .metric n => { r with metric := n }
  | .hello n => { r with helloInterval := n }
  | .retrans n => { r with retransmitInterval := n }
  | .dead n => { r with deadInterval := n }

/-- Explicitly-set sub-fields of an interface, in the encoder's emission
order. -/
def ospfIfaceFields (i : ospfInterface) : List OspfField :=
  (if i.disable = true then [.disable] else []) ++
  (if i.passive = true then [.passive] else []) ++
  (if i.metric ≠ 0 then [.metric i.metric] else []) ++
  (if i.helloInterval ≠ 0 then [.hello i.helloInterval] else []) ++
  (if i.retransmitInterval ≠ 0 then [.retrans i.retransmitInterval] else []) ++
  (if i.deadInterval ≠ 0 then [.dead i.deadInterval] else [])

/-- Relative interface line for one sub-field, as the read loop sees it. -/
def ospfRelLine (name sfx : GoStr) : GoStr :=
  setLineStart ++ (interfaceKw ++ (name ++ (' ' :: sfx)))

/-- The integer payload of one interface sub-field fits in Go's 64-bit int. -/
def ospfFieldBounded : OspfField → Prop
  | .metric n => int64Bounded n
  | .hello n => int64Bounded n
  | .retrans n => int64Bounded n
  | .dead n => int64Bounded n
  | _ => True

instance (f : OspfField) : Decidable (ospfFieldBounded f) :=
  match f with
  | .disable => inferInstanceAs (Decidable True)
  | .passive => inferInstanceAs (Decidable True)
  | .metric n => inferInstanceAs (Decidable (int64Bounded n))
  | .hello n => inferInstanceAs (Decidable (int64Bounded n))
  | .retrans n => inferInstanceAs (Decidable (int64Bounded n))
  | .dead n => inferInstanceAs (Decidable (int64Bounded n))

/-- Every integer sub-field of an interface fits in Go's 64-bit int, as it
does in every record the Go schema can hold. -/
def ospfIfaceBounded (i : ospfInterface) : Prop :=
  int64Bounded i.metric ∧ int64Bounded i.helloInterval ∧
    int64Bounded i.retransmitInterval ∧ int64Bounded i.deadInterval

instance (i : ospfInterface) : Decidable (ospfIfaceBounded i) :=
  inferInstanceAs (Decidable (_ ∧ _ ∧ _ ∧ _))

/-- C5 counterexample helper: the line list the claim asserts. -/
def c5ClaimedLines : List GoStr :=
  ["security ipsec policy POL1 proposals p1".data,
   "security ipsec policy POL1 proposals p2".data,
   "security ipsec policy POL1 perfect-forward-secrecy keys group14".data]

/-- C5: the counterexample shows the claimed list differs from the code's
output; the amended claim below states the actual output. -/
theorem c5_encode_example_counterexample :
    setIpsecPolicy "POL1".data "group14".data ["p1".data, "p2".data] ≠ c5ClaimedLines := by
  decide

/-- C5 (amended): encoding an ipsec-policy record with proposals
`["p1","p2"]` and pfs-keys `"group14"` under the object prefix
`security ipsec policy POL1` yields exactly three lines, each carrying the
`set ` statement keyword, with the perfect-forward-secrecy keys line first
and then the two proposals lines in list order. -/
theorem c5_encode_example :
    setIpsecPolicy "POL1".data "group14".data ["p1".data, "p2".data] =
      ["set security ipsec policy POL1 perfect-forward-secrecy keys group14".data,
       "set security ipsec policy POL1 proposals p1".data,
       "set security ipsec policy POL1 proposals p2".data] := by
  decide

/-- C1: for every resource create operation (ipsec policy, ike proposal, ike
policy, ospf area), when the session starts, the device is compatible, the
pre-mutation existence check reports the object absent, staging and commit
succeed, but the post-commit existence check still reports it absent, the
create fails with the commit-verification error and never emits a `SetId`
event. -/
theorem c1_commit_verify_no_id :
    (∀ (name pfsKeys : GoStr) (proposals : List GoStr) (env : SessEnv),
      env.startErr = none → env.compatible = true →
      checkIpsecPolicyExists env.cmdRes1 = .ok false →
      env.setErr1 = none → env.commitErr = none →
      checkIpsecPolicyExists env.cmdRes2 = .ok false →
      (resourceIpsecPolicyCreate name pfsKeys proposals env).2 =
        .error (ipsecNotExistsAfterCommitMsg name) ∧
      ∀ i, Event.setId i ∉ (resourceIpsecPolicyCreate name pfsKeys proposals env).1) ∧
    (∀ (name aAlg aMeth dh eAlg : GoStr) (life : Int) (env : SessEnv),
      env.startErr = none → env.compatible = true →
      checkIkeProposalExists env.cmdRes1 = .ok false →
      env.setErr1 = none → env.commitErr = none →
      checkIkeProposalExists env.cmdRes2 = .ok false →
      (resourceIkeProposalCreate name aAlg aMeth dh eAlg life env).2 =
        .error (ikeProposalNotExistsAfterCommitMsg name) ∧
      ∀ i, Event.setId i ∉ (resourceIkeProposalCreate name aAlg aMeth dh eAlg life env).1) ∧
    (∀ (name mode kt kh : GoStr) (proposals ls : List GoStr) (env : SessEnv),
      env.startErr = none → env.compatible = true →
      checkIkePolicyExists env.cmdRes1 = .ok false →
      setIkePolicy name mode proposals kt kh = .ok ls →
      env.setErr1 = none → env.commitErr = none →
      checkIkePolicyExists env.cmdRes2 = .ok false →
      (resourceIkePolicyCreate name mode proposals kt kh env).2 =
        .error (ikePolicyNotExistsAfterCommitMsg name) ∧
      ∀ i, Event.setId i ∉ (resourceIkePolicyCreate name mode proposals kt kh env).1) ∧
    (∀ (areaID version routingInstance : GoStr) (interFace : List ospfInterface)
      (env : SessEnv),
      env.startErr = none →
      checkOspfAreaExists env.cmdRes1 = .ok false →
      env.setErr1 = none → env.commitErr = none →
      checkOspfAreaExists env.cmdRes2 = .ok false →
      (resourceOspfAreaCreate areaID version routingInstance interFace env).2 =
        .error (ospfNotExistsAfterCommitMsg areaID version routingInstance) ∧
      ∀ i, Event.setId i ∉
        (resourceOspfAreaCreate areaID version routingInstance interFace env).1) := by
  refine ⟨?_, ?_, ?_, ?_⟩
  · intro name pfsKeys proposals env h1 h2 h3 h4 h5 h6
    obtain ⟨se, mo, co, c1, s1, s2, ce, c2⟩ := env
    simp only at h1 h2 h3 h4 h5 h6
    subst h1 h2 h4 h5
    simp [resourceIpsecPolicyCreate, h3, h6]
  · intro name aAlg aMeth dh eAlg life env h1 h2 h3 h4 h5 h6
    obtain ⟨se, mo, co, c1, s1, s2, ce, c2⟩ := env
    simp only at h1 h2 h3 h4 h5 h6
    subst h1 h2 h4 h5
    simp [resourceIkeProposalCreate, h3, h6]
  · intro name mode kt kh proposals ls env h1 h2 h3 hsp h4 h5 h6
    obtain ⟨se, mo, co, c1, s1, s2, ce, c2⟩ := env
    simp only at h1 h2 h3 h4 h5 h6
    subst h1 h2 h4 h5
    simp [resourceIkePolicyCreate, h3, h6, hsp]
  · intro areaID version routingInstance interFace env h1 h3 h4 h5 h6
    obtain ⟨se, mo, co, c1, s1, s2, ce, c2⟩ := env
    simp only at h1 h3 h4 h5 h6
    subst h1 h4 h5
    simp [resourceOspfAreaCreate, h3, h6]

/-- C1 witness: a concrete environment in which every pre-commit step
succeeds and both existence checks see the empty sentinel. -/
theorem c1_commit_verify_no_id_witness :
    (resourceIpsecPolicyCreate "P".data [] ["p1".data]
        ⟨none, [], true, .ok emptyWord, none, none, none, .ok emptyWord⟩).2 =
      .error (ipsecNotExistsAfterCommitMsg "P".data) ∧
    (resourceIkeProposalCreate "P".data [] [] [] [] 0
        ⟨none, [], true, .ok emptyWord, none, none, none, .ok emptyWord⟩).2 =
      .error (ikeProposalNotExistsAfterCommitMsg "P".data) ∧
    (resourceIkePolicyCreate "P".data "main".data ["p1".data] [] []
        ⟨none, [], true, .ok emptyWord, none, none, none, .ok emptyWord⟩).2 =
      .error (ikePolicyNotExistsAfterCommitMsg "P".data) ∧
    (resourceOspfAreaCreate "0".data "v2".data defaultWord []
        ⟨none, [], true, .ok emptyWord, none, none, none, .ok emptyWord⟩).2 =
      .error (ospfNotExistsAfterCommitMsg "0".data "v2".data defaultWord) := by
  refine ⟨?_, ?_, ?_, ?_⟩
  · exact (c1_commit_verify_no_id.1 "P".data [] ["p1".data] _ rfl rfl (by decide) rfl rfl
      (by decide)).1
  · exact (c1_commit_verify_no_id.2.1 "P".data [] [] [] [] 0 _ rfl rfl (by decide) rfl rfl
      (by decide)).1
  · exact (c1_commit_verify_no_id.2.2.1 "P".data "main".data [] [] ["p1".data]
      ["set security ike policy P mode main".data,
       "set security ike policy P proposals p1".data] _ rfl rfl
      (by decide) (by decide) rfl rfl (by decide)).1
  · exact (c1_commit_verify_no_id.2.2.2 "0".data "v2".data defaultWord [] _ rfl (by decide)
      rfl rfl (by decide)).1

/-- C2: for every resource create operation, when the pre-mutation existence
check reports the object present, the create fails with the already-exists
error and emits no `configSet` event, so no configuration line is staged. -/
theorem c2_guard_no_configset :
    (∀ (name pfsKeys raw1 : GoStr) (proposals : List GoStr) (env : SessEnv),
      env.startErr = none → env.compatible = true →
      env.cmdRes1 = .ok raw1 → raw1 ≠ emptyWord →
      (resourceIpsecPolicyCreate name pfsKeys proposals env).2 =
        .error (ipsecAlreadyExistsMsg name) ∧
      ∀ ls, Event.configSet ls ∉ (resourceIpsecPolicyCreate name pfsKeys proposals env).1) ∧
    (∀ (name aAlg aMeth dh eAlg raw1 : GoStr) (life : Int) (env : SessEnv),
      env.startErr = none → env.compatible = true →
      env.cmdRes1 = .ok raw1 → raw1 ≠ emptyWord →
      (resourceIkeProposalCreate name aAlg aMeth dh eAlg life env).2 =
        .error (ikeProposalAlreadyExistsMsg name) ∧
      ∀ ls, Event.configSet ls ∉
        (resourceIkeProposalCreate name aAlg aMeth dh eAlg life env).1) ∧
    (∀ (name mode kt kh raw1 : GoStr) (proposals : List GoStr) (env : SessEnv),
      env.startErr = none → env.compatible = true →
      env.cmdRes1 = .ok raw1 → raw1 ≠ emptyWord →
      (resourceIkePolicyCreate name mode proposals kt kh env).2 =
        .error (ikePolicyAlreadyExistsMsg name) ∧
      ∀ ls, Event.configSet ls ∉ (resourceIkePolicyCreate name mode proposals kt kh env).1) ∧
    (∀ (areaID version routingInstance raw1 : GoStr) (interFace : List ospfInterface)
      (env : SessEnv),
      env.startErr = none →
      env.cmdRes1 = .ok raw1 → raw1 ≠ emptyWord →
      (resourceOspfAreaCreate areaID version routingInstance interFace env).2 =
        .error (ospfAlreadyExistsMsg areaID version routingInstance) ∧
      ∀ ls, Event.configSet ls ∉
        (resourceOspfAreaCreate areaID version routingInstance interFace env).1) := by
  refine ⟨?_, ?_, ?_, ?_⟩
  · intro name pfsKeys raw1 proposals env h1 h2 h3 h4
    obtain ⟨se, mo, co, c1, s1, s2, ce, c2⟩ := env
    simp only at h1 h2 h3
    subst h1 h2 h3
    simp [resourceIpsecPolicyCreate, checkIpsecPolicyExists, h4]
  · intro name aAlg aMeth dh eAlg raw1 life env h1 h2 h3 h4
    obtain ⟨se, mo, co, c1, s1, s2, ce, c2⟩ := env
    simp only at h1 h2 h3
    subst h1 h2 h3
    simp [resourceIkeProposalCreate, checkIkeProposalExists, h4]
  · intro name mode kt kh raw1 proposals env h1 h2 h3 h4
    obtain ⟨se, mo, co, c1, s1, s2, ce, c2⟩ := env
    simp only at h1 h2 h3
    subst h1 h2 h3
    simp [resourceIkePolicyCreate, checkIkePolicyExists, h4]
  · intro areaID version routingInstance raw1 interFace env h1 h3 h4
    obtain ⟨se, mo, co, c1, s1, s2, ce, c2⟩ := env
    simp only at h1 h3
    subst h1 h3
    simp [resourceOspfAreaCreate, checkOspfAreaExists, h4]

/-- C2 witness: a concrete environment whose pre-mutation query returns a
non-empty configuration, so the object already exists. -/
theorem c2_guard_no_configset_witness :
    (resourceIpsecPolicyCreate "P".data [] ["p1".data]
        ⟨none, [], true, .ok "x".data, none, none, none, .ok emptyWord⟩).2 =
      .error (ipsecAlreadyExistsMsg "P".data) ∧
    (resourceIkeProposalCreate "P".data [] [] [] [] 0
        ⟨none, [], true, .ok "x".data, none, none, none, .ok emptyWord⟩).2 =
      .error (ikeProposalAlreadyExistsMsg "P".data) ∧
    (resourceIkePolicyCreate "P".data "main".data ["p1".data] [] []
        ⟨none, [], true, .ok "x".data, none, none, none, .ok emptyWord⟩).2 =
      .error (ikePolicyAlreadyExistsMsg "P".data) ∧
    (resourceOspfAreaCreate "0".data "v2".data defaultWord []
        ⟨none, [], true, .ok "x".data, none, none, none, .ok emptyWord⟩).2 =
      .error (ospfAlreadyExistsMsg "0".data "v2".data defaultWord) := by
  refine ⟨?_, ?_, ?_, ?_⟩
  · exact (c2_guard_no_configset.1 "P".data [] "x".data ["p1".data] _ rfl rfl rfl
      (by decide)).1
  · exact (c2_guard_no_configset.2.1 "P".data [] [] [] [] "x".data 0 _ rfl rfl rfl
      (by decide)).1
  · exact (c2_guard_no_configset.2.2.1 "P".data "main".data [] [] "x".data ["p1".data] _
      rfl rfl rfl (by decide)).1
  · exact (c2_guard_no_configset.2.2.2 "0".data "v2".data defaultWord "x".data [] _
      rfl rfl (by decide)).1

/-- C3 counterexample: after a successful commit, a transport error on the
post-commit existence check of the ipsec policy create is surfaced while the
configuration lock has been taken and no `configClear` rollback is ever
issued, refuting the claim that every step failing under the lock triggers a
rollback before the error is surfaced. -/
theorem c3_rollback_counterexample :
    (resourceIpsecPolicyCreate "P".data [] ["p1".data]
        ⟨none, [], true, .ok emptyWord, none, none, none, .error "boom".data⟩).2 =
      .error "boom".data ∧
    Event.configLock ∈ (resourceIpsecPolicyCreate "P".data [] ["p1".data]
        ⟨none, [], true, .ok emptyWord, none, none, none, .error "boom".data⟩).1 ∧
    Event.configClear ∉ (resourceIpsecPolicyCreate "P".data [] ["p1".data]
        ⟨none, [], true, .ok emptyWord, none, none, none, .error "boom".data⟩).1 := by
  refine ⟨by decide, by decide, by decide⟩

/-- C3 (amended): for every modelled lifecycle operation (create, update and
delete of all four resources), an error surfaced after the configuration
lock was acquired is either preceded by a `configClear` rollback of the
staged-but-uncommitted lines, or arose after the commit already succeeded
(the post-commit verification steps of create, which do not roll back). -/
theorem c3_rollback_before_error :
    (∀ (name pfsKeys : GoStr) (proposals : List GoStr) (env : SessEnv) (e : GoStr),
      (resourceIpsecPolicyCreate name pfsKeys proposals env).2 = .error e →
      Event.configLock ∈ (resourceIpsecPolicyCreate name pfsKeys proposals env).1 →
      Event.configClear ∈ (resourceIpsecPolicyCreate name pfsKeys proposals env).1 ∨
        (env.commitErr = none ∧
          Event.commitConf "create resource junos_security_ipsec_policy".data ∈
            (resourceIpsecPolicyCreate name pfsKeys proposals env).1)) ∧
    (∀ (name pfsKeys : GoStr) (proposals : List GoStr) (env : SessEnv) (e : GoStr),
      (resourceIpsecPolicyUpdate name pfsKeys proposals env).2 = .error e →
      Event.configLock ∈ (resourceIpsecPolicyUpdate name pfsKeys proposals env).1 →
      Event.configClear ∈ (resourceIpsecPolicyUpdate name pfsKeys proposals env).1 ∨
        (env.commitErr = none ∧
          Event.commitConf "update resource junos_security_ipsec_policy".data ∈
            (resourceIpsecPolicyUpdate name pfsKeys proposals env).1)) ∧
    (∀ (name : GoStr) (env : SessEnv) (e : GoStr),
      (resourceIpsecPolicyDelete name env).2 = .error e →
      Event.configLock ∈ (resourceIpsecPolicyDelete name env).1 →
      Event.configClear ∈ (resourceIpsecPolicyDelete name env).1 ∨
        (env.commitErr = none ∧
          Event.commitConf "delete resource junos_security_ipsec_policy".data ∈
            (resourceIpsecPolicyDelete name env).1)) ∧
    (∀ (name aAlg aMeth dh eAlg : GoStr) (life : Int) (env : SessEnv) (e : GoStr),
      (resourceIkeProposalCreate name aAlg aMeth dh eAlg life env).2 = .error e →
      Event.configLock ∈ (resourceIkeProposalCreate name aAlg aMeth dh eAlg life env).1 →
      Event.configClear ∈ (resourceIkeProposalCreate name aAlg aMeth dh eAlg life env).1 ∨
        (env.commitErr = none ∧
          Event.commitConf "create resource junos_security_ike_proposal".data ∈
            (resourceIkeProposalCreate name aAlg aMeth dh eAlg life env).1)) ∧
    (∀ (name aAlg aMeth dh eAlg : GoStr) (life : Int) (env : SessEnv) (e : GoStr),
      (resourceIkeProposalUpdate name aAlg aMeth dh eAlg life env).2 = .error e →
      Event.configLock ∈ (resourceIkeProposalUpdate name aAlg aMeth dh eAlg life env).1 →
      Event.configClear ∈ (resourceIkeProposalUpdate name aAlg aMeth dh eAlg life env).1 ∨
        (env.commitErr = none ∧
          Event.commitConf "update resource junos_security_ike_proposal".data ∈
            (resourceIkeProposalUpdate name aAlg aMeth dh eAlg life env).1)) ∧
    (∀ (name : GoStr) (env : SessEnv) (e : GoStr),
      (resourceIkeProposalDelete name env).2 = .error e →
      Event.configLock ∈ (resourceIkeProposalDelete name env).1 →
      Event.configClear ∈ (resourceIkeProposalDelete name env).1 ∨
        (env.commitErr = none ∧
          Event.commitConf "delete resource junos_security_ike_proposal".data ∈
            (resourceIkeProposalDelete name env).1)) ∧
    (∀ (name mode kt kh : GoStr) (proposals : List GoStr) (env : SessEnv) (e : GoStr),
      (resourceIkePolicyCreate name mode proposals kt kh env).2 = .error e →
      Event.configLock ∈ (resourceIkePolicyCreate name mode proposals kt kh env).1 →
      Event.configClear ∈ (resourceIkePolicyCreate name mode proposals kt kh env).1 ∨
        (env.commitErr = none ∧
          Event.commitConf "create resource junos_security_ike_policy".data ∈
            (resourceIkePolicyCreate name mode proposals kt kh env).1)) ∧
    (∀ (name mode kt kh : GoStr) (proposals : List GoStr) (env : SessEnv) (e : GoStr),
      (resourceIkePolicyUpdate name mode proposals kt kh env).2 = .error e →
      Event.configLock ∈ (resourceIkePolicyUpdate name mode proposals kt kh env).1 →
      Event.configClear ∈ (resourceIkePolicyUpdate name mode proposals kt kh env).1 ∨
        (env.commitErr = none ∧
          Event.commitConf "update resource junos_security_ike_policy".data ∈
            (resourceIkePolicyUpdate name mode proposals kt kh env).1)) ∧
    (∀ (name : GoStr) (env : SessEnv) (e : GoStr),
      (resourceIkePolicyDelete name env).2 = .error e →
      Event.configLock ∈ (resourceIkePolicyDelete name env).1 →
      Event.configClear ∈ (resourceIkePolicyDelete name env).1 ∨
        (env.commitErr = none ∧
          Event.commitConf "delete resource junos_security_ike_policy".data ∈
            (resourceIkePolicyDelete name env).1)) ∧
    (∀ (areaID version routingInstance : GoStr) (interFace : List ospfInterface)
      (env : SessEnv) (e : GoStr),
      (resourceOspfAreaCreate areaID version routingInstance interFace env).2 = .error e →
      Event.configLock ∈
        (resourceOspfAreaCreate areaID version routingInstance interFace env).1 →
      Event.configClear ∈
        (resourceOspfAreaCreate areaID version routingInstance interFace env).1 ∨
        (env.commitErr = none ∧
          Event.commitConf "create resource junos_ospf_area".data ∈
            (resourceOspfAreaCreate areaID version routingInstance interFace env).1)) ∧
    (∀ (areaID version routingInstance : GoStr) (interFace : List ospfInterface)
      (env : SessEnv) (e : GoStr),
      (resourceOspfAreaUpdate areaID version routingInstance interFace env).2 = .error e →
      Event.configLock ∈
        (resourceOspfAreaUpdate areaID version routingInstance interFace env).1 →
      Event.configClear ∈
        (resourceOspfAreaUpdate areaID version routingInstance interFace env).1 ∨
        (env.commitErr = none ∧
          Event.commitConf "update resource junos_ospf_area".data ∈
            (resourceOspfAreaUpdate areaID version routingInstance interFace env).1)) ∧
    (∀ (areaID version routingInstance : GoStr) (env : SessEnv) (e : GoStr),
      (resourceOspfAreaDelete areaID version routingInstance env).2 = .error e →
      Event.configLock ∈ (resourceOspfAreaDelete areaID version routingInstance env).1 →
      Event.configClear ∈ (resourceOspfAreaDelete areaID version routingInstance env).1 ∨
        (env.commitErr = none ∧
          Event.commitConf "delete resource junos_ospf_area".data ∈
            (resourceOspfAreaDelete areaID version routingInstance env).1)) := by
  refine ⟨?_, ?_, ?_, ?_, ?_, ?_, ?_, ?_, ?_, ?_, ?_, ?_⟩
  · intro name pfsKeys proposals env e h hl
    obtain ⟨se, mo, co, c1, s1, s2, ce, c2⟩ := env
    rcases se with _ | se <;> cases co <;>
      rcases c1 with e1 | r1 <;>
      rcases s1 with _ | s1 <;> rcases ce with _ | ce <;>
      rcases c2 with e2 | r2 <;>
      (try by_cases hr1 : r1 = emptyWord) <;>
      (try by_cases hr2 : r2 = emptyWord) <;>
      simp_all [resourceIpsecPolicyCreate, checkIpsecPolicyExists]
  · intro name pfsKeys proposals env e h hl
    obtain ⟨se, mo, co, c1, s1, s2, ce, c2⟩ := env
    rcases se with _ | se <;>
      rcases s1 with _ | s1 <;> rcases s2 with _ | s2 <;> rcases ce with _ | ce <;>
      simp_all [resourceIpsecPolicyUpdate]
  · intro name env e h hl
    obtain ⟨se, mo, co, c1, s1, s2, ce, c2⟩ := env
    rcases se with _ | se <;>
      rcases s1 with _ | s1 <;> rcases ce with _ | ce <;>
      simp_all [resourceIpsecPolicyDelete]
  · intro name aAlg aMeth dh eAlg life env e h hl
    obtain ⟨se, mo, co, c1, s1, s2, ce, c2⟩ := env
    rcases se with _ | se <;> cases co <;>
      rcases c1 with e1 | r1 <;>
      rcases s1 with _ | s1 <;> rcases ce with _ | ce <;>
      rcases c2 with e2 | r2 <;>
      (try by_cases hr1 : r1 = emptyWord) <;>
      (try by_cases hr2 : r2 = emptyWord) <;>
      simp_all [resourceIkeProposalCreate, checkIkeProposalExists]
  · intro name aAlg aMeth dh eAlg life env e h hl
    obtain ⟨se, mo, co, c1, s1, s2, ce, c2⟩ := env
    rcases se with _ | se <;>
      rcases s1 with _ | s1 <;> rcases s2 with _ | s2 <;> rcases ce with _ | ce <;>
      simp_all [resourceIkeProposalUpdate]
  · intro name env e h hl
    obtain ⟨se, mo, co, c1, s1, s2, ce, c2⟩ := env
    rcases se with _ | se <;>
      rcases s1 with _ | s1 <;> rcases ce with _ | ce <;>
      simp_all [resourceIkeProposalDelete]
  · intro name mode kt kh proposals env e h hl
    obtain ⟨se, mo, co, c1, s1, s2, ce, c2⟩ := env
    rcases hsp : setIkePolicy name mode proposals kt kh with esp | ls <;>
      rcases se with _ | se <;> cases co <;>
      rcases c1 with e1 | r1 <;>
      rcases s1 with _ | s1 <;> rcases ce with _ | ce <;>
      rcases c2 with e2 | r2 <;>
      (try by_cases hr1 : r1 = emptyWord) <;>
      (try by_cases hr2 : r2 = emptyWord) <;>
      simp_all [resourceIkePolicyCreate, checkIkePolicyExists]
  · intro name mode kt kh proposals env e h hl
    obtain ⟨se, mo, co, c1, s1, s2, ce, c2⟩ := env
    rcases hsp : setIkePolicy name mode proposals kt kh with esp | ls <;>
      rcases se with _ | se <;>
      rcases s1 with _ | s1 <;> rcases s2 with _ | s2 <;> rcases ce with _ | ce <;>
      simp_all [resourceIkePolicyUpdate]
  · intro name env e h hl
    obtain ⟨se, mo, co, c1, s1, s2, ce, c2⟩ := env
    rcases se with _ | se <;>
      rcases s1 with _ | s1 <;> rcases ce with _ | ce <;>
      simp_all [resourceIkePolicyDelete]
  · intro areaID version routingInstance interFace env e h hl
    obtain ⟨se, mo, co, c1, s1, s2, ce, c2⟩ := env
    rcases se with _ | se <;>
      rcases c1 with e1 | r1 <;>
      rcases s1 with _ | s1 <;> rcases ce with _ | ce <;>
      rcases c2 with e2 | r2 <;>
      (try by_cases hr1 : r1 = emptyWord) <;>
      (try by_cases hr2 : r2 = emptyWord) <;>
      simp_all [resourceOspfAreaCreate, checkOspfAreaExists]
  · intro areaID version routingInstance interFace env e h hl
    obtain ⟨se, mo, co, c1, s1, s2, ce, c2⟩ := env
    rcases se with _ | se <;>
      rcases s1 with _ | s1 <;> rcases s2 with _ | s2 <;> rcases ce with _ | ce <;>
      simp_all [resourceOspfAreaUpdate]
  · intro areaID version routingInstance env e h hl
    obtain ⟨se, mo, co, c1, s1, s2, ce, c2⟩ := env
    rcases se with _ | se <;>
      rcases s1 with _ | s1 <;> rcases ce with _ | ce <;>
      simp_all [resourceOspfAreaDelete]

/-- C3 witness: a concrete failing staging step of the ipsec policy update is
followed by a rollback. -/
theorem c3_rollback_before_error_witness :
    Event.configClear ∈ (resourceIpsecPolicyUpdate "P".data [] ["p1".data]
        ⟨none, [], true, .ok emptyWord, some "boom".data, none, none, .ok emptyWord⟩).1 ∨
      ((⟨none, [], true, .ok emptyWord, some "boom".data, none, none,
          .ok emptyWord⟩ : SessEnv).commitErr = none ∧
        Event.commitConf "update resource junos_security_ipsec_policy".data ∈
          (resourceIpsecPolicyUpdate "P".data [] ["p1".data]
            ⟨none, [], true, .ok emptyWord, some "boom".data, none, none,
              .ok emptyWord⟩).1) :=
  c3_rollback_before_error.2.1 "P".data [] ["p1".data] _ "boom".data (by decide) (by decide)

/-- Helper: flatMap ignores filtered-out elements whose image is empty. -/
theorem flatMap_filter_of_empty {α β : Type} (p : α → Bool) (f : α → List β)
    (h : ∀ a, p a = false → f a = []) :
    ∀ l : List α, (l.filter p).flatMap f = l.flatMap f := by
  intro l
  induction l with
  | nil => rfl
  | cons a t ih =>
    by_cases hp : p a = true
    · simp [List.filter_cons, hp, ih]
    · simp only [Bool.not_eq_true] at hp
      simp [List.filter_cons, hp, ih, h a hp]

/-- C6 counterexample: encoding an OSPF-area interface whose only set field
is its name produces no line at all — in particular not the bare key line
the claim asserts. -/
theorem c6_bare_key_counterexample :
    setOspfArea "0".data "v2".data defaultWord
      [⟨"ge-0/0/0".data, false, false, 0, 0, 0, 0⟩] = [] ∧
    setOspfArea "0".data "v2".data defaultWord
      [⟨"ge-0/0/0".data, false, false, 0, 0, 0, 0⟩] ≠
      ["set protocols ospf area 0 interface ge-0/0/0".data] := by
  refine ⟨by decide, by decide⟩

/-- C6 (amended): the repeated-block encoder emits one line per
explicitly-set sub-field and never a bare key line: sub-records with no
explicitly-set sub-field can be dropped without changing the output, and a
sub-record whose only set field is its name contributes no lines. -/
theorem c6_subfield_lines_only :
    (∀ (areaID version routingInstance : GoStr) (interFace : List ospfInterface),
      setOspfArea areaID version routingInstance (interFace.filter ospfIfaceHasField) =
        setOspfArea areaID version routingInstance interFace) ∧
    (∀ (areaID version routingInstance name : GoStr),
      setOspfArea areaID version routingInstance [freshOspfInterface name] = []) := by
  constructor
  · intro areaID version routingInstance interFace
    simp only [setOspfArea]
    apply flatMap_filter_of_empty
    intro i hi
    simp only [ospfIfaceHasField, Bool.or_eq_false_iff, bne_eq_false_iff_eq] at hi
    obtain ⟨⟨⟨⟨⟨h1, h2⟩, h3⟩, h4⟩, h5⟩, h6⟩ := hi
    simp [h1, h2, h3, h4, h5, h6]
  · intro areaID version routingInstance name
    simp [setOspfArea, freshOspfInterface]

/-- Helper: the ipsec policy read loop stops at a line carrying the closing
marker (and not the opening one), ignoring everything after it. -/
theorem ipsecLoop_break (stop : GoStr) (h1 : containsSub stop confCloseMark = true)
    (h2 : containsSub stop confOpenMark = false) :
    ∀ (pre post : List GoStr) (cr : ipsecPolicyOptions),
    ipsecLoop (pre ++ stop :: post) cr = ipsecLoop pre cr := by
  intro pre
  induction pre with
  | nil => intro post cr; simp [ipsecLoop, ipsecStep, h1, h2]
  | cons item pre ih =>
    intro post cr
    rw [List.cons_append]
    simp only [ipsecLoop]
    rcases h : ipsecStep item cr with cr2 | cr2 <;> simp only [h]
    exact ih post cr2

/-- Helper: the ike proposal read loop stops at a line carrying the closing
marker (and not the opening one). -/
theorem ikeProposalLoop_break (stop : GoStr) (h1 : containsSub stop confCloseMark = true)
    (h2 : containsSub stop confOpenMark = false) :
    ∀ (pre post : List GoStr) (cr : ikeProposalOptions),
    ikeProposalLoop (pre ++ stop :: post) cr = ikeProposalLoop pre cr := by
  intro pre
  induction pre with
  | nil => intro post cr; simp [ikeProposalLoop, ikeProposalStep, h1, h2]
  | cons item pre ih =>
    intro post cr
    rw [List.cons_append]
    simp only [ikeProposalLoop]
    rcases h : ikeProposalStep item cr with cr2 | r <;> simp only [h]
    exact ih post cr2

/-- Helper: the ike policy read loop stops at a line carrying the closing
marker (and not the opening one). -/
theorem ikePolicyLoop_break (stop : GoStr) (h1 : containsSub stop confCloseMark = true)
    (h2 : containsSub stop confOpenMark = false) :
    ∀ (pre post : List GoStr) (cr : ikePolicyOptions),
    ikePolicyLoop (pre ++ stop :: post) cr = ikePolicyLoop pre cr := by
  intro pre
  induction pre with
  | nil => intro post cr; simp [ikePolicyLoop, ikePolicyStep, h1, h2]
  | cons item pre ih =>
    intro post cr
    rw [List.cons_append]
    simp only [ikePolicyLoop]
    rcases h : ikePolicyStep item cr with cr2 | r <;> simp only [h]
    exact ih post cr2

/-- Helper: the ospf area read loop stops at a line carrying the closing
marker (and not the opening one). -/
theorem ospfAreaLoop_break (stop : GoStr) (h1 : containsSub stop confCloseMark = true)
    (h2 : containsSub stop confOpenMark = false) :
    ∀ (pre post : List GoStr) (acc : List ospfInterface),
    ospfAreaLoop (pre ++ stop :: post) acc = ospfAreaLoop pre acc := by
  intro pre
  induction pre with
  | nil => intro post acc; simp [ospfAreaLoop, ospfAreaStep, h1, h2]
  | cons item pre ih =>
    intro post acc
    rw [List.cons_append]
    simp only [ospfAreaLoop]
    rcases h : ospfAreaStep item acc with acc2 | r <;> simp only [h]
    exact ih post acc2

/-- C10 counterexample: a line containing both the opening and the closing
marker hits the opening-marker `continue` first, so the loop does not break
there: the recognized `dh-group` line after it still contributes, contrary
to the claim that everything from the first line containing the closing
marker is discarded. -/
theorem c10_marker_counterexample :
    containsSub "<configuration-output></configuration-output>".data confCloseMark = true ∧
    (readIkeProposal "P".data
      "<configuration-output></configuration-output>\nset dh-group grp14".data).1.dhGroup =
      "grp14".data := by
  refine ⟨by decide, by decide⟩

/-- C10 (amended): every read parser skips any line containing the opening
marker, and discards all lines from the first line that contains the closing
marker but not the opening marker to the end of the input: the loop result
over such a stream equals the result over the prefix before that line, for
all four resources. -/
theorem c10_break_at_close_marker :
    (∀ (stop : GoStr), containsSub stop confCloseMark = true →
      containsSub stop confOpenMark = false →
      ∀ (pre post : List GoStr) (cr : ipsecPolicyOptions),
      ipsecLoop (pre ++ stop :: post) cr = ipsecLoop pre cr) ∧
    (∀ (stop : GoStr), containsSub stop confCloseMark = true →
      containsSub stop confOpenMark = false →
      ∀ (pre post : List GoStr) (cr : ikeProposalOptions),
      ikeProposalLoop (pre ++ stop :: post) cr = ikeProposalLoop pre cr) ∧
    (∀ (stop : GoStr), containsSub stop confCloseMark = true →
      containsSub stop confOpenMark = false →
      ∀ (pre post : List GoStr) (cr : ikePolicyOptions),
      ikePolicyLoop (pre ++ stop :: post) cr = ikePolicyLoop pre cr) ∧
    (∀ (stop : GoStr), containsSub stop confCloseMark = true →
      containsSub stop confOpenMark = false →
      ∀ (pre post : List GoStr) (acc : List ospfInterface),
      ospfAreaLoop (pre ++ stop :: post) acc = ospfAreaLoop pre acc) :=
  ⟨fun stop h1 h2 => ipsecLoop_break stop h1 h2,
   fun stop h1 h2 => ikeProposalLoop_break stop h1 h2,
   fun stop h1 h2 => ikePolicyLoop_break stop h1 h2,
   fun stop h1 h2 => ospfAreaLoop_break stop h1 h2⟩

/-- C10 witness: a concrete closing-marker line discards a recognized
proposals line occurring after it. -/
theorem c10_break_at_close_marker_witness :
    ipsecLoop (["set proposals p1".data] ++ "</configuration-output>".data ::
        ["set proposals p2".data]) ⟨"P".data, [], []⟩ =
      ipsecLoop ["set proposals p1".data] ⟨"P".data, [], []⟩ :=
  c10_break_at_close_marker.1 "</configuration-output>".data (by decide) (by decide)
    ["set proposals p1".data] ["set proposals p2".data] ⟨"P".data, [], []⟩
/-- Helper: the merge helper hands back a sub-record carrying the looked-up
key. -/
theorem copy_fst_name (m : ospfInterface) :
    ∀ l : List ospfInterface, (copyAndRemoveItemMapList m l).1.name = m.name := by
  intro l
  induction l with
  | nil => rfl
  | cons e rest ih =>
    simp only [copyAndRemoveItemMapList]
    by_cases h : e.name = m.name
    · simp [h]
    · simp [h, ih]

/-- Helper: under unique keys, removing the merged sub-record from the list
filters its key out of the key sequence. -/
theorem copy_snd_names (m : ospfInterface) :
    ∀ l : List ospfInterface, ((l.map fun i => i.name).Nodup) →
      (copyAndRemoveItemMapList m l).2.map (fun i => i.name) =
        (l.map fun i => i.name).filter (fun x => x != m.name) := by
  intro l
  induction l with
  | nil => intro _; rfl
  | cons e rest ih =>
    intro hn
    simp only [List.map_cons, List.nodup_cons] at hn
    obtain ⟨hne, hrest⟩ := hn
    simp only [copyAndRemoveItemMapList, List.map_cons, List.filter_cons]
    by_cases h : e.name = m.name
    · rw [if_pos h]
      have hb : (e.name != m.name) = false := by rw [bne_eq_false_iff_eq]; exact h
      rw [hb]
      simp only [Bool.false_eq_true, if_false]
      symm
      rw [List.filter_eq_self]
      intro a ha
      rw [bne_iff_ne]
      intro hc
      rw [hc, ← h] at ha
      exact hne ha
    · rw [if_neg h]
      have hb : (e.name != m.name) = true := by rw [bne_iff_ne]; exact h
      rw [hb]
      simp only [if_true, List.map_cons]
      rw [ih hrest]

/-- Helper: merging a fresh sub-record keyed `nm` into a unique-key list and
appending the merged record moves `nm` to the end of the key sequence and
keeps the keys unique. -/
theorem merged_names (nm : GoStr) (acc : List ospfInterface) (rec : ospfInterface)
    (hn : (acc.map fun i => i.name).Nodup) (hrec : rec.name = nm) :
    (((copyAndRemoveItemMapList (freshOspfInterface nm) acc).2 ++ [rec]).map
        (fun i => i.name) =
      (acc.map fun i => i.name).filter (fun x => x != nm) ++ [nm]) ∧
    ((((copyAndRemoveItemMapList (freshOspfInterface nm) acc).2 ++ [rec]).map
        fun i => i.name).Nodup) := by
  have hcopy := copy_snd_names (freshOspfInterface nm) acc hn
  have hfn : (freshOspfInterface nm).name = nm := rfl
  rw [hfn] at hcopy
  have heq : ((copyAndRemoveItemMapList (freshOspfInterface nm) acc).2 ++ [rec]).map
      (fun i => i.name) =
      (acc.map fun i => i.name).filter (fun x => x != nm) ++ [nm] := by
    rw [List.map_append, hcopy, List.map_cons, List.map_nil, hrec]
  refine ⟨heq, ?_⟩
  rw [heq, List.nodup_append]
  refine ⟨List.Nodup.filter _ hn, List.nodup_singleton nm, ?_⟩
  intro a ha hb
  simp only [List.mem_singleton] at hb
  subst hb
  have := List.of_mem_filter ha
  simp [bne_iff_ne] at this

/-- Helper: classification of a continuing ospf read-loop step: marker and
unrecognized lines leave the list unchanged, and an interface line with key
`nm` moves `nm` to the end of the key sequence, keeping keys unique. -/
theorem ospfAreaStep_inl (item : GoStr) (acc : List ospfInterface)
    (hn : (acc.map fun i => i.name).Nodup) :
    ∀ acc2, ospfAreaStep item acc = .inl acc2 →
      ((acc2.map fun i => i.name).Nodup ∧
       (containsSub item confOpenMark = true → acc2 = acc) ∧
       (containsSub item confOpenMark = false → ospfIfaceNameOf item = none → acc2 = acc) ∧
       (∀ nm, containsSub item confOpenMark = false → ospfIfaceNameOf item = some nm →
         acc2.map (fun i => i.name) =
           (acc.map fun i => i.name).filter (fun x => x != nm) ++ [nm])) := by
  intro acc2 hstep
  simp only [ospfAreaStep] at hstep
  by_cases ho : containsSub item confOpenMark = true
  · rw [if_pos ho] at hstep
    injection hstep with h2
    subst h2
    exact ⟨hn, fun _ => rfl, fun _ _ => rfl, fun nm hof _ => absurd ho (by simp [hof])⟩
  · rw [if_neg ho] at hstep
    by_cases hc : containsSub item confCloseMark = true
    · rw [if_pos hc] at hstep
      cases hstep
    · rw [if_neg hc] at hstep
      simp only [Bool.not_eq_true] at ho
      rcases hname : ospfIfaceNameOf item with _ | tok
      · rw [hname] at hstep
        injection hstep with h2
        subst h2
        exact ⟨hn, fun _ => rfl, fun _ _ => rfl, fun nm _ hx => Option.noConfusion hx⟩
      · rw [hname] at hstep
        simp only [] at hstep
        have hfst := copy_fst_name (freshOspfInterface tok) acc
        split_ifs at hstep <;> (try split at hstep) <;>
          (try exact Sum.noConfusion hstep) <;>
          (injection hstep with h3
           subst h3
           refine ⟨(merged_names tok acc _ hn ?_).2, fun hx => absurd hx (by simp [ho]),
             fun _ hx => Option.noConfusion hx, fun nm _ hx => ?_⟩
           · exact hfst
           · injection hx with hx2
             subst hx2
             refine (merged_names tok acc _ hn ?_).1
             exact hfst)

/-- Helper: classification of a stopping ospf read-loop step: it keeps the
keys unique, and a stop without error is exactly the closing-marker break,
leaving the list unchanged. -/
theorem ospfAreaStep_inr (item : GoStr) (acc : List ospfInterface)
    (hn : (acc.map fun i => i.name).Nodup) :
    ∀ r, ospfAreaStep item acc = .inr r →
      ((r.1.map fun i => i.name).Nodup ∧
       (r.2 = none → r = (acc, none) ∧ containsSub item confOpenMark = false ∧
          containsSub item confCloseMark = true)) := by
  intro r hstep
  simp only [ospfAreaStep] at hstep
  by_cases ho : containsSub item confOpenMark = true
  · rw [if_pos ho] at hstep
    exact Sum.noConfusion hstep
  · rw [if_neg ho] at hstep
    by_cases hc : containsSub item confCloseMark = true
    · rw [if_pos hc] at hstep
      injection hstep with h2
      subst h2
      exact ⟨hn, fun _ => ⟨rfl, by simp [ho], hc⟩⟩
    · rw [if_neg hc] at hstep
      rcases hname : ospfIfaceNameOf item with _ | tok
      · rw [hname] at hstep
        exact Sum.noConfusion hstep
      · rw [hname] at hstep
        simp only [] at hstep
        have hcopy := copy_snd_names (freshOspfInterface tok) acc hn
        split_ifs at hstep <;> (try split at hstep) <;>
          (try exact Sum.noConfusion hstep) <;>
          (injection hstep with h3
           subst h3
           refine ⟨?_, fun hx => Option.noConfusion hx⟩
           rw [hcopy]
           exact List.Nodup.filter _ hn)

/-- Helper: the ospf read loop preserves uniqueness of the interface keys. -/
theorem ospfAreaLoop_nodup : ∀ (lines : List GoStr) (acc : List ospfInterface),
    ((acc.map fun i => i.name)).Nodup →
    (((ospfAreaLoop lines acc).1.map fun i => i.name)).Nodup := by
  intro lines
  induction lines with
  | nil => intro acc h; exact h
  | cons item rest ih =>
    intro acc h
    simp only [ospfAreaLoop]
    rcases hstep : ospfAreaStep item acc with acc2 | r <;> (try simp only [hstep])
    · exact ih acc2 (ospfAreaStep_inl item acc h acc2 hstep).1
    · exact (ospfAreaStep_inr item acc h r hstep).1

/-- Helper: when the ospf read loop finishes without error, the key sequence
of its output is the fold of the last-appearance reordering over the keys of
the processed interface lines. -/
theorem ospfAreaLoop_names : ∀ (lines : List GoStr) (acc : List ospfInterface),
    ((acc.map fun i => i.name)).Nodup →
    (ospfAreaLoop lines acc).2 = none →
    (ospfAreaLoop lines acc).1.map (fun i => i.name) =
      (ospfIfaceNamesOf lines).foldl (fun ns n => ns.filter (fun m => m != n) ++ [n])
        (acc.map fun i => i.name) := by
  intro lines
  induction lines with
  | nil => intro acc h he; rfl
  | cons item rest ih =>
    intro acc h he
    simp only [ospfAreaLoop] at he ⊢
    simp only [ospfIfaceNamesOf]
    rcases hstep : ospfAreaStep item acc with acc2 | r <;> (try simp only [hstep] at he ⊢)
    · have spec := ospfAreaStep_inl item acc h acc2 hstep
      by_cases ho : containsSub item confOpenMark = true
      · rw [if_pos ho]
        have ha := spec.2.1 ho
        rw [ha] at he ⊢
        exact ih acc h he
      · rw [if_neg ho]
        simp only [Bool.not_eq_true] at ho
        by_cases hc : containsSub item confCloseMark = true
        · exfalso
          simp only [ospfAreaStep, ho, hc] at hstep
          simp at hstep
        · rw [if_neg hc]
          rcases hno : ospfIfaceNameOf item with _ | nm
          · have ha := spec.2.2.1 ho hno
            rw [ha] at he ⊢
            exact ih acc h he
          · have hnames := spec.2.2.2 nm ho hno
            rw [List.foldl_cons, ← hnames]
            exact ih acc2 spec.1 he
    · have spec := ospfAreaStep_inr item acc h r hstep
      obtain ⟨hr, ho, hc⟩ := spec.2 he
      subst hr
      rw [if_neg (by simp [ho]), if_pos hc]
      rfl

/-- C8: for every raw line stream, the interface list decoded by the ospf
area read contains at most one sub-record per key: the key sequence of the
output has no duplicates, so a reappearing key merges into the existing
sub-record instead of creating a second one. -/
theorem c8_unique_keys : ∀ areaID version routingInstance raw : GoStr,
    (((readOspfArea areaID version routingInstance raw).1.interFace).map
      fun i => i.name).Nodup := by
  intro a v r raw
  rw [readOspfArea]
  by_cases h : raw = emptyWord
  · rw [if_pos h]
    simp
  · rw [if_neg h]
    exact ospfAreaLoop_nodup (goSplit '\n' raw) [] (by simp)

/-- C7 counterexample: with the interleaved stream `interface a metric 1`,
`interface b metric 2`, `interface a passive`, the decoded list is ordered
`b, a` — the reappearance of `a` moved its merged sub-record to the end —
not the first-appearance order `a, b` the claim asserts. -/
theorem c7_order_counterexample :
    ((readOspfArea "0".data "v2".data defaultWord
        "set interface a metric 1\nset interface b metric 2\nset interface a passive".data).1.interFace.map
      fun i => i.name) = ["b".data, "a".data] ∧
    ((readOspfArea "0".data "v2".data defaultWord
        "set interface a metric 1\nset interface b metric 2\nset interface a passive".data).1.interFace.map
      fun i => i.name) ≠ ["a".data, "b".data] := by
  refine ⟨by decide, by decide⟩

/-- C7 (amended): for every raw line stream parsed without error, the
decoded interface list orders its sub-records by the last appearance of
each key in the stream: a key reappearing later moves its merged sub-record
to the end of the list (which coincides with first-appearance order only
when the lines of distinct keys do not interleave). -/
theorem c7_last_appearance_order : ∀ areaID version routingInstance raw : GoStr,
    (readOspfArea areaID version routingInstance raw).2 = none →
    (readOspfArea areaID version routingInstance raw).1.interFace.map (fun i => i.name) =
      lastAppearOrder (ospfIfaceNamesOf (goSplit '\n' raw)) := by
  intro a v r raw he
  rw [readOspfArea] at he ⊢
  by_cases h : raw = emptyWord
  · rw [if_pos h]
    subst h
    decide
  · rw [if_neg h] at he ⊢
    exact ospfAreaLoop_names (goSplit '\n' raw) [] (by simp) he

/-- C7 witness: the last-appearance order equality at a concrete interleaved
stream. -/
theorem c7_last_appearance_order_witness :
    (readOspfArea "0".data "v2".data defaultWord
        "set interface a metric 1\nset interface b metric 2\nset interface a passive".data).1.interFace.map
      (fun i => i.name) =
      lastAppearOrder (ospfIfaceNamesOf (goSplit '\n'
        "set interface a metric 1\nset interface b metric 2\nset interface a passive".data)) :=
  c7_last_appearance_order "0".data "v2".data defaultWord _ (by decide)
/-- Helper: a string with a prefix splits as that prefix plus the rest. -/
theorem eq_append_of_hasPre (t p : GoStr) (h : hasPre t p = true) :
    t = p ++ t.drop p.length := by
  unfold hasPre at h
  obtain ⟨s, rfl⟩ := List.isPrefixOf_iff_prefix.mp h
  simp [List.drop_left]

/-- Helper: the ike proposal read loop errors exactly when one of the lines
it processes is a lifetime-seconds line with an invalid integer suffix. -/
theorem ikeProposalLoop_err : ∀ (lines : List GoStr) (cr : ikeProposalOptions),
    ((ikeProposalLoop lines cr).2 ≠ none ↔
      ∃ l ∈ processedLines lines, ikeProposalBadLine l = true) := by
  intro lines
  induction lines with
  | nil => intro cr; simp [ikeProposalLoop, processedLines]
  | cons item rest ih =>
    intro cr
    simp only [ikeProposalLoop, ikeProposalStep, processedLines]
    split_ifs with ho hc h1 h2 h3 h4 h5
    · exact ih cr
    · simp
    · simp only []
      rw [ih _]
      have hb : ikeProposalBadLine item = false := by
        simp only [ikeProposalBadLine]
        rw [eq_append_of_hasPre _ _ h1]
        rfl
      simp [hb]
    · simp only []
      rw [ih _]
      have hb : ikeProposalBadLine item = false := by
        simp only [ikeProposalBadLine]
        rw [eq_append_of_hasPre _ _ h2]
        rfl
      simp [hb]
    · simp only []
      rw [ih _]
      have hb : ikeProposalBadLine item = false := by
        simp only [ikeProposalBadLine]
        rw [eq_append_of_hasPre _ _ h3]
        rfl
      simp [hb]
    · simp only []
      rw [ih _]
      have hb : ikeProposalBadLine item = false := by
        simp only [ikeProposalBadLine]
        rw [eq_append_of_hasPre _ _ h4]
        rfl
      simp [hb]
    · split
      · next n heq =>
        split at heq
        · next k heq2 =>
          injection heq with h6
          subst h6
          rw [ih _]
          have hb : ikeProposalBadLine item = false := by
            simp only [ikeProposalBadLine]
            rw [heq2]
            simp
          simp [hb]
        · next e2 heq2 =>
          exact Sum.noConfusion heq
      · next er heq =>
        split at heq
        · next k heq2 =>
          exact Sum.noConfusion heq
        · next e2 heq2 =>
          injection heq with h6
          subst h6
          have hb : ikeProposalBadLine item = true := by
            simp only [ikeProposalBadLine]
            rw [heq2]
            simp [h5]
          constructor
          · intro _
            exact ⟨item, List.mem_cons_self item _, hb⟩
          · intro _
            simp
    · simp only []
      rw [ih _]
      have hb : ikeProposalBadLine item = false := by
        rw [Bool.not_eq_true] at h5
        simp [ikeProposalBadLine, h5]
      simp [hb]

/-- Helper: the ike policy read loop errors exactly when one of the lines it
processes is a pre-shared-key line whose payload fails the secret
reversal. -/
theorem ikePolicyLoop_err : ∀ (lines : List GoStr) (cr : ikePolicyOptions),
    ((ikePolicyLoop lines cr).2 ≠ none ↔
      ∃ l ∈ processedLines lines, ikePolicyBadLine l = true) := by
  intro lines
  induction lines with
  | nil => intro cr; simp [ikePolicyLoop, processedLines]
  | cons item rest ih =>
    intro cr
    simp only [ikePolicyLoop, ikePolicyStep, processedLines]
    split_ifs with ho hc h1 h2 h3 h4
    · exact ih cr
    · simp
    · simp only []
      rw [ih _]
      have hb : ikePolicyBadLine item = false := by
        simp only [ikePolicyBadLine]
        rw [eq_append_of_hasPre _ _ h1]
        rfl
      simp [hb]
    · simp only []
      rw [ih _]
      have hb : ikePolicyBadLine item = false := by
        simp only [ikePolicyBadLine]
        rw [eq_append_of_hasPre _ _ h2]
        rfl
      simp [hb]
    · split
      · next n heq =>
        split at heq
        · next k heq2 =>
          injection heq with h6
          subst h6
          rw [ih _]
          have hb : ikePolicyBadLine item = false := by
            simp only [ikePolicyBadLine]
            rw [heq2]
            simp only [Bool.and_false, Bool.false_or]
            rw [eq_append_of_hasPre _ _ h3]
            rfl
          simp [hb]
        · next e2 heq2 =>
          exact Sum.noConfusion heq
      · next er heq =>
        split at heq
        · next k heq2 =>
          exact Sum.noConfusion heq
        · next e2 heq2 =>
          injection heq with h6
          subst h6
          have hb : ikePolicyBadLine item = true := by
            simp only [ikePolicyBadLine]
            rw [heq2]
            simp [h3]
          constructor
          · intro _
            exact ⟨item, List.mem_cons_self item _, hb⟩
          · intro _
            simp
    · split
      · next n heq =>
        split at heq
        · next k heq2 =>
          injection heq with h6
          subst h6
          rw [ih _]
          have hb : ikePolicyBadLine item = false := by
            simp only [ikePolicyBadLine]
            rw [heq2]
            simp [h3]
          simp [hb]
        · next e2 heq2 =>
          exact Sum.noConfusion heq
      · next er heq =>
        split at heq
        · next k heq2 =>
          exact Sum.noConfusion heq
        · next e2 heq2 =>
          injection heq with h6
          subst h6
          have hb : ikePolicyBadLine item = true := by
            simp only [ikePolicyBadLine]
            rw [heq2]
            simp [h3, h4]
          constructor
          · intro _
            exact ⟨item, List.mem_cons_self item _, hb⟩
          · intro _
            simp
    · simp only []
      rw [ih _]
      have hb : ikePolicyBadLine item = false := by
        simp [ikePolicyBadLine, h3, h4]
      simp [hb]

/-- Helper: an unrecognized, marker-free line is a no-op for the ike
proposal read loop. -/
theorem ikeProposalStep_skip (g : GoStr) (h1 : ikeProposalLineRecognized g = false)
    (h2 : containsSub g confOpenMark = false) (h3 : containsSub g confCloseMark = false) :
    ∀ cr, ikeProposalStep g cr = .inl cr := by
  intro cr
  simp only [ikeProposalLineRecognized, Bool.or_eq_false_iff] at h1
  obtain ⟨⟨⟨⟨k1, k2⟩, k3⟩, k4⟩, k5⟩ := h1
  simp [ikeProposalStep, h2, h3, k1, k2, k3, k4, k5]

/-- Helper: an unrecognized, marker-free line is a no-op for the ike policy
read loop. -/
theorem ikePolicyStep_skip (g : GoStr) (h1 : ikePolicyLineRecognized g = false)
    (h2 : containsSub g confOpenMark = false) (h3 : containsSub g confCloseMark = false) :
    ∀ cr, ikePolicyStep g cr = .inl cr := by
  intro cr
  simp only [ikePolicyLineRecognized, Bool.or_eq_false_iff] at h1
  obtain ⟨⟨⟨k1, k2⟩, k3⟩, k4⟩ := h1
  simp [ikePolicyStep, h2, h3, k1, k2, k3, k4]

/-- Helper: inserting an unrecognized, marker-free line anywhere in the
stream leaves the ike proposal read result unchanged. -/
theorem ikeProposalLoop_skip (g : GoStr) (h1 : ikeProposalLineRecognized g = false)
    (h2 : containsSub g confOpenMark = false) (h3 : containsSub g confCloseMark = false) :
    ∀ (pre post : List GoStr) (cr : ikeProposalOptions),
    ikeProposalLoop (pre ++ g :: post) cr = ikeProposalLoop (pre ++ post) cr := by
  intro pre
  induction pre with
  | nil =>
    intro post cr
    simp only [List.nil_append, ikeProposalLoop, ikeProposalStep_skip g h1 h2 h3]
  | cons item pre ih =>
    intro post cr
    rw [List.cons_append, List.cons_append]
    simp only [ikeProposalLoop]
    rcases h : ikeProposalStep item cr with cr2 | r <;> simp only [h]
    exact ih post cr2

/-- Helper: inserting an unrecognized, marker-free line anywhere in the
stream leaves the ike policy read result unchanged. -/
theorem ikePolicyLoop_skip (g : GoStr) (h1 : ikePolicyLineRecognized g = false)
    (h2 : containsSub g confOpenMark = false) (h3 : containsSub g confCloseMark = false) :
    ∀ (pre post : List GoStr) (cr : ikePolicyOptions),
    ikePolicyLoop (pre ++ g :: post) cr = ikePolicyLoop (pre ++ post) cr := by
  intro pre
  induction pre with
  | nil =>
    intro post cr
    simp only [List.nil_append, ikePolicyLoop, ikePolicyStep_skip g h1 h2 h3]
  | cons item pre ih =>
    intro post cr
    rw [List.cons_append, List.cons_append]
    simp only [ikePolicyLoop]
    rcases h : ikePolicyStep item cr with cr2 | r <;> simp only [h]
    exact ih post cr2

/-- Helper: the ospf area read loop errors exactly when one of the lines it
processes is an interface line whose integer-valued sub-field has an invalid
suffix. -/
theorem ospfAreaLoop_err : ∀ (lines : List GoStr) (acc : List ospfInterface),
    ((ospfAreaLoop lines acc).2 ≠ none ↔
      ∃ l ∈ processedLines lines, ospfAreaBadLine l = true) := by
  intro lines
  induction lines with
  | nil => intro acc; simp [ospfAreaLoop, processedLines]
  | cons item rest ih =>
    intro acc
    simp only [ospfAreaLoop, ospfAreaStep, processedLines]
    by_cases ho : containsSub item confOpenMark = true
    · rw [if_pos ho, if_pos ho]
      simp only []
      exact ih _
    · rw [if_neg ho, if_neg ho]
      by_cases hc : containsSub item confCloseMark = true
      · rw [if_pos hc, if_pos hc]
        simp
      · rw [if_neg hc, if_neg hc]
        rcases hname : ospfIfaceNameOf item with _ | tok
        · simp only []
          rw [ih _]
          have hb : ospfAreaBadLine item = false := by
            simp only [ospfAreaBadLine]
            rw [hname]
          simp [hb]
        · simp only []
          split_ifs with hd hp hm hh hr hdd
          · simp only []
            rw [ih _]
            have hb : ospfAreaBadLine item = false := by
              simp only [ospfAreaBadLine]
              rw [hname]
              simp only []
              rw [eq_append_of_hasPre _ _ hd]
              rfl
            simp [hb]
          · simp only []
            rw [ih _]
            have hb : ospfAreaBadLine item = false := by
              simp only [ospfAreaBadLine]
              rw [hname]
              simp only []
              rw [eq_append_of_hasPre _ _ hp]
              rfl
            simp [hb]
          · split
            · next n heq =>
              split at heq
              · next k heq2 =>
                injection heq with h6
                subst h6
                rw [ih _]
                have hb : ospfAreaBadLine item = false := by
                  simp only [ospfAreaBadLine]
                  rw [hname]
                  simp only []
                  rw [heq2]
                  simp only [Bool.and_false, Bool.false_or]
                  rw [eq_append_of_hasPre _ _ hm]
                  rfl
                simp [hb]
              · next e2 heq2 =>
                exact Sum.noConfusion heq
            · next er heq =>
              split at heq
              · next k heq2 =>
                exact Sum.noConfusion heq
              · next e2 heq2 =>
                injection heq with h6
                subst h6
                have hb : ospfAreaBadLine item = true := by
                  simp only [ospfAreaBadLine]
                  rw [hname]
                  simp only []
                  rw [heq2]
                  rw [List.append_assoc] at hm
                  simp [hm]
                constructor
                · intro _
                  exact ⟨item, List.mem_cons_self item _, hb⟩
                · intro _
                  simp
          · split
            · next n heq =>
              split at heq
              · next k heq2 =>
                injection heq with h6
                subst h6
                rw [ih _]
                have hb : ospfAreaBadLine item = false := by
                  simp only [ospfAreaBadLine]
                  rw [hname]
                  simp only []
                  rw [heq2]
                  simp only [Bool.and_false, Bool.false_or]
                  rw [eq_append_of_hasPre _ _ hh]
                  rfl
                simp [hb]
              · next e2 heq2 =>
                exact Sum.noConfusion heq
            · next er heq =>
              split at heq
              · next k heq2 =>
                exact Sum.noConfusion heq
              · next e2 heq2 =>
                injection heq with h6
                subst h6
                have hb : ospfAreaBadLine item = true := by
                  simp only [ospfAreaBadLine]
                  rw [hname]
                  simp only []
                  rw [heq2]
                  rw [List.append_assoc] at hh
                  simp [hh]
                constructor
                · intro _
                  exact ⟨item, List.mem_cons_self item _, hb⟩
                · intro _
                  simp
          · split
            · next n heq =>
              split at heq
              · next k heq2 =>
                injection heq with h6
                subst h6
                rw [ih _]
                have hb : ospfAreaBadLine item = false := by
                  simp only [ospfAreaBadLine]
                  rw [hname]
                  simp only []
                  rw [heq2]
                  simp only [Bool.and_false, Bool.false_or]
                  rw [eq_append_of_hasPre _ _ hr]
                  rfl
                simp [hb]
              · next e2 heq2 =>
                exact Sum.noConfusion heq
            · next er heq =>
              split at heq
              · next k heq2 =>
                exact Sum.noConfusion heq
              · next e2 heq2 =>
                injection heq with h6
                subst h6
                have hb : ospfAreaBadLine item = true := by
                  simp only [ospfAreaBadLine]
                  rw [hname]
                  simp only []
                  rw [heq2]
                  rw [List.append_assoc] at hr
                  simp [hr]
                constructor
                · intro _
                  exact ⟨item, List.mem_cons_self item _, hb⟩
                · intro _
                  simp
          · split
            · next n heq =>
              split at heq
              · next k heq2 =>
                injection heq with h6
                subst h6
                rw [ih _]
                have hb : ospfAreaBadLine item = false := by
                  simp only [ospfAreaBadLine]
                  rw [hname]
                  simp only []
                  rw [heq2]
                  simp only [Bool.and_false, Bool.false_or]
                  rw [eq_append_of_hasPre _ _ hdd]
                  rfl
                simp [hb]
              · next e2 heq2 =>
                exact Sum.noConfusion heq
            · next er heq =>
              split at heq
              · next k heq2 =>
                exact Sum.noConfusion heq
              · next e2 heq2 =>
                injection heq with h6
                subst h6
                have hb : ospfAreaBadLine item = true := by
                  simp only [ospfAreaBadLine]
                  rw [hname]
                  simp only []
                  rw [heq2]
                  rw [List.append_assoc] at hdd
                  simp [hdd]
                constructor
                · intro _
                  exact ⟨item, List.mem_cons_self item _, hb⟩
                · intro _
                  simp
          · simp only []
            rw [ih _]
            have hb : ospfAreaBadLine item = false := by
              simp only [ospfAreaBadLine]
              rw [hname]
              simp only []
              rw [List.append_assoc] at hm hh hr hdd
              simp [hm, hh, hr, hdd]
            simp [hb]

/-- C9 (amended): decode errors are exactly the per-line data errors: the
ike proposal and ospf area reads fail iff a processed recognized
integer-valued line has a suffix the 64-bit integer parse rejects - bad
syntax or a value out of the signed 64-bit range - and the ike policy read
fails iff a processed pre-shared-key line fails the secret reversal;
unrecognized marker-free lines can be inserted anywhere without changing
the result, and the empty sentinel yields the absent record without
error. -/
theorem c9_decode_error_iff :
    (∀ nm raw : GoStr,
      ((readIkeProposal nm raw).2 ≠ none ↔
        ∃ l ∈ processedLines (goSplit '\n' raw), ikeProposalBadLine l = true)) ∧
    (∀ nm raw : GoStr,
      ((readIkePolicy nm raw).2 ≠ none ↔
        ∃ l ∈ processedLines (goSplit '\n' raw), ikePolicyBadLine l = true)) ∧
    (∀ areaID version routingInstance raw : GoStr,
      ((readOspfArea areaID version routingInstance raw).2 ≠ none ↔
        ∃ l ∈ processedLines (goSplit '\n' raw), ospfAreaBadLine l = true)) ∧
    (∀ g : GoStr, ikeProposalLineRecognized g = false →
      containsSub g confOpenMark = false → containsSub g confCloseMark = false →
      ∀ (pre post : List GoStr) (cr : ikeProposalOptions),
      ikeProposalLoop (pre ++ g :: post) cr = ikeProposalLoop (pre ++ post) cr) ∧
    (∀ g : GoStr, ikePolicyLineRecognized g = false →
      containsSub g confOpenMark = false → containsSub g confCloseMark = false →
      ∀ (pre post : List GoStr) (cr : ikePolicyOptions),
      ikePolicyLoop (pre ++ g :: post) cr = ikePolicyLoop (pre ++ post) cr) ∧
    (∀ nm : GoStr, readIkeProposal nm emptyWord = (⟨0, [], [], [], [], []⟩, none) ∧
      readIkePolicy nm emptyWord = (⟨[], [], [], [], []⟩, none)) ∧
    (∀ areaID version routingInstance : GoStr,
      readOspfArea areaID version routingInstance emptyWord = (⟨[], [], [], []⟩, none)) := by
  refine ⟨?_, ?_, ?_, ikeProposalLoop_skip, ikePolicyLoop_skip, ?_, ?_⟩
  · intro nm raw
    rw [readIkeProposal]
    by_cases h : raw = emptyWord
    · rw [if_pos h]
      subst h
      decide
    · rw [if_neg h]
      exact ikeProposalLoop_err _ _
  · intro nm raw
    rw [readIkePolicy]
    by_cases h : raw = emptyWord
    · rw [if_pos h]
      subst h
      decide
    · rw [if_neg h]
      exact ikePolicyLoop_err _ _
  · intro areaID version routingInstance raw
    rw [readOspfArea]
    by_cases h : raw = emptyWord
    · rw [if_pos h]
      subst h
      decide
    · rw [if_neg h]
      exact ospfAreaLoop_err _ _
  · intro nm
    exact ⟨rfl, rfl⟩
  · intro areaID version routingInstance
    rfl

/-- C9 counterexample: the ike policy read errors on a pre-shared-key line
whose payload cannot be reversed, although no recognized integer-valued
field line is present (the ike policy table has no integer fields), so an
invalid integer suffix is not the only decode error condition. -/
theorem c9_error_condition_counterexample :
    (readIkePolicy "P".data "set pre-shared-key ascii-text mysecret".data).2 =
      some (asciiDecodeErrMsg "invalid secret".data) := by
  decide

/-- C9 witness: inserting a concrete garbage line after a recognized
dh-group line leaves the ike proposal read loop's result unchanged, and a
lifetime line whose numeral exceeds the signed 64-bit range makes the ike
proposal read fail. -/
theorem c9_decode_error_iff_witness :
    (ikeProposalLoop (["set dh-group g14".data] ++ "set garbage line".data :: [])
        ⟨0, "P".data, [], [], [], []⟩ =
      ikeProposalLoop (["set dh-group g14".data] ++ []) ⟨0, "P".data, [], [], [], []⟩) ∧
    (readIkeProposal "P".data
        "set lifetime-seconds 9999999999999999999999999".data).2 ≠ none :=
  ⟨c9_decode_error_iff.2.2.2.1 "set garbage line".data (by decide) (by decide) (by decide)
      ["set dh-group g14".data] [] ⟨0, "P".data, [], [], [], []⟩,
    (c9_decode_error_iff.1 "P".data
        "set lifetime-seconds 9999999999999999999999999".data).mpr
      ⟨"set lifetime-seconds 9999999999999999999999999".data, by decide, by decide⟩⟩

theorem digitVal_digitChr (d : Nat) (h : d < 10) : digitVal (digitChr d) = some d := by
  interval_cases d <;> rfl

theorem digitsToNat_append (xs : GoStr) (c : Char) :
    digitsToNat (xs ++ [c]) = digitsToNat xs * 10 + (digitVal c).getD 0 := by
  simp [digitsToNat, List.foldl_append]

theorem dtn_digits : ∀ l : List Nat, (∀ d ∈ l, d < 10) →
    digitsToNat ((l.map digitChr).reverse) = Nat.ofDigits 10 l := by
  intro l
  induction l with
  | nil => intro _; rfl
  | cons d l ih =>
    intro hd
    simp only [List.map_cons, List.reverse_cons]
    rw [digitsToNat_append]
    rw [ih (fun x hx => hd x (List.mem_cons_of_mem _ hx))]
    rw [digitVal_digitChr d (hd d (List.mem_cons_self _ _))]
    simp [Nat.ofDigits_cons]
    ring

theorem atoiCore_natToChars (m : Nat) : atoiCore (natToChars m) = .ok m := by
  by_cases h : m = 0
  · subst h
    decide
  · rw [natToChars, if_neg h, atoiCore, if_pos]
    · rw [dtn_digits _ (fun d hd => Nat.digits_lt_base (by norm_num) hd)]
      rw [Nat.ofDigits_digits]
    · constructor
      · simp [Nat.digits_ne_nil_iff_ne_zero, h]
      · rw [allDigits, List.all_eq_true]
        intro c hc
        rw [List.mem_reverse, List.mem_map] at hc
        obtain ⟨d, hd, rfl⟩ := hc
        rw [digitVal_digitChr d (Nat.digits_lt_base (by norm_num) hd)]
        rfl

theorem natToChars_shape (m : Nat) :
    ∃ c cs, natToChars m = c :: cs ∧ (digitVal c).isSome = true := by
  by_cases h : m = 0
  · subst h
    exact ⟨'0', [], rfl, rfl⟩
  · have hne : natToChars m ≠ [] := by
      rw [natToChars, if_neg h]
      simp [Nat.digits_ne_nil_iff_ne_zero, h]
    rcases hc : natToChars m with _ | ⟨c, cs⟩
    · exact absurd hc hne
    · refine ⟨c, cs, rfl, ?_⟩
      have : c ∈ natToChars m := by rw [hc]; exact List.mem_cons_self _ _
      rw [natToChars, if_neg h, List.mem_reverse, List.mem_map] at this
      obtain ⟨d, hd, rfl⟩ := this
      rw [digitVal_digitChr d (Nat.digits_lt_base (by norm_num) hd)]
      rfl

theorem atoiGo_itoaGo (n : Int) (hb : int64Bounded n) : atoiGo (itoaGo n) = .ok n := by
  obtain ⟨hlo, hhi⟩ := hb
  rw [itoaGo]
  by_cases h : n < 0
  · rw [if_pos h]
    show (match atoiCore (natToChars n.natAbs) with
      | .ok k =>
        if k ≤ 9223372036854775808 then Except.ok (-(k : Int))
        else Except.error outOfRangeMsg
      | .error e => Except.error e) = Except.ok n
    rw [atoiCore_natToChars]
    show (if n.natAbs ≤ 9223372036854775808 then Except.ok (-(n.natAbs : Int))
      else Except.error outOfRangeMsg) = Except.ok n
    rw [if_pos (by omega)]
    congr 1
    omega
  · rw [if_neg h]
    obtain ⟨c, cs, hshape, hdig⟩ := natToChars_shape n.natAbs
    rw [hshape]
    have hcm : c ≠ '-' := by
      intro hx
      subst hx
      exact absurd hdig (by decide)
    have hcp : c ≠ '+' := by
      intro hx
      subst hx
      exact absurd hdig (by decide)
    rw [atoiGo, if_neg hcm, if_neg hcp]
    rw [← hshape, atoiCore_natToChars]
    show (if n.natAbs ≤ 9223372036854775807 then Except.ok ((n.natAbs : Nat) : Int)
      else Except.error outOfRangeMsg) = Except.ok n
    rw [if_pos (by omega)]
    congr 1
    omega

theorem hasPre_append (p t : GoStr) : hasPre (p ++ t) p = true := by
  rw [hasPre]
  exact List.isPrefixOf_iff_prefix.mpr ⟨t, rfl⟩

theorem trimPre_append (p t : GoStr) : trimPre (p ++ t) p = t := by
  rw [trimPre, if_pos (List.isPrefixOf_iff_prefix.mpr ⟨t, rfl⟩)]
  exact List.drop_left p t

theorem goSplit_no_sep (sep : Char) : ∀ a : GoStr, sep ∉ a → goSplit sep a = [a] := by
  intro a
  induction a with
  | nil => intro _; rfl
  | cons c rest ih =>
    intro h
    rw [goSplit, if_neg (by intro hc; subst hc; exact h (List.mem_cons_self _ _))]
    rw [ih (fun hm => h (List.mem_cons_of_mem c hm))]

theorem goSplit_append_sep (sep : Char) : ∀ (a rest : GoStr), sep ∉ a →
    goSplit sep (a ++ sep :: rest) = a :: goSplit sep rest := by
  intro a
  induction a with
  | nil =>
    intro rest _
    rw [List.nil_append, goSplit, if_pos rfl]
  | cons c a2 ih =>
    intro rest h
    rw [List.cons_append, goSplit, if_neg (by intro hc; subst hc; exact h (List.mem_cons_self _ _))]
    rw [ih rest (fun hm => h (List.mem_cons_of_mem c hm))]

theorem goSplit_goJoin (sep : Char) : ∀ ls : List GoStr, ls ≠ [] →
    (∀ l ∈ ls, sep ∉ l) → goSplit sep (goJoin sep ls) = ls := by
  intro ls
  induction ls with
  | nil => intro h; exact absurd rfl h
  | cons l ls ih =>
    intro _ hsep
    rcases ls with _ | ⟨l2, ls2⟩
    · rw [goJoin]
      exact goSplit_no_sep sep l (hsep l (List.mem_cons_self _ _))
    · have hj : goJoin sep (l :: l2 :: ls2) = l ++ sep :: goJoin sep (l2 :: ls2) := rfl
      rw [hj]
      rw [goSplit_append_sep sep l _ (hsep l (List.mem_cons_self _ _))]
      rw [ih (List.cons_ne_nil _ _) (fun x hx => hsep x (List.mem_cons_of_mem l hx))]

theorem goSplit_head (sep : Char) (a rest : GoStr) (h : sep ∉ a) :
    (goSplit sep (a ++ sep :: rest)).headD [] = a := by
  rw [goSplit_append_sep sep a rest h]
  rfl

theorem mem_of_containsSub (s sub : GoStr) (h : containsSub s sub = true) :
    ∀ c ∈ sub, c ∈ s := by
  intro c hc
  rw [containsSub, List.any_eq_true] at h
  obtain ⟨t, ht, hpre⟩ := h
  have h1 : sub <+: t := List.isPrefixOf_iff_prefix.mp hpre
  have h2 : t <:+ s := (List.mem_tails _ _).mp ht
  exact h2.subset (h1.subset hc)

theorem containsSub_eq_false (s sub : GoStr) (c : Char) (hc : c ∈ sub) (hs : c ∉ s) :
    containsSub s sub = false := by
  rcases h : containsSub s sub with _ | _
  · rfl
  · exact absurd (mem_of_containsSub s sub h c hc) hs

theorem mem_natToChars (m : Nat) (c : Char) (h : c ∈ natToChars m) :
    (digitVal c).isSome = true := by
  by_cases hm : m = 0
  · subst hm
    rw [natToChars, if_pos rfl, List.mem_singleton] at h
    subst h
    rfl
  · rw [natToChars, if_neg hm, List.mem_reverse, List.mem_map] at h
    obtain ⟨d, hd, rfl⟩ := h
    rw [digitVal_digitChr d (Nat.digits_lt_base (by norm_num) hd)]
    rfl

theorem mem_itoaGo (n : Int) (c : Char) (h : c ∈ itoaGo n) :
    c = '-' ∨ (digitVal c).isSome = true := by
  rw [itoaGo] at h
  by_cases hn : n < 0
  · rw [if_pos hn] at h
    rcases List.mem_cons.mp h with h | h
    · exact Or.inl h
    · exact Or.inr (mem_natToChars _ _ h)
  · rw [if_neg hn] at h
    exact Or.inr (mem_natToChars _ _ h)

theorem itoa_clean (n : Int) : cleanVal (itoaGo n) := by
  refine ⟨fun hc => ?_, fun hc => ?_⟩ <;>
    rcases mem_itoaGo _ _ hc with h | h <;> exact absurd h (by decide)

theorem goJoin_set_head (r : GoStr) : ∀ ls : List GoStr,
    (goJoin '\n' ((setLineStart ++ r) :: ls)).head? = some 's'
  | [] => rfl
  | _ :: _ => rfl

theorem feed_split (L : List GoStr)
    (h : ∀ l ∈ L, ∃ r, l = setLineStart ++ r ∧ '\n' ∉ r) :
    goJoin '\n' L ≠ emptyWord ∧
      (goSplit '\n' (goJoin '\n' L) = L ∨ (L = [] ∧ goSplit '\n' (goJoin '\n' L) = [[]])) := by
  rcases L with _ | ⟨l, ls⟩
  · exact ⟨by decide, Or.inr ⟨rfl, rfl⟩⟩
  · obtain ⟨r, rfl, -⟩ := h _ (List.mem_cons_self _ _)
    constructor
    · intro hc
      have h0 := goJoin_set_head r ls
      rw [hc] at h0
      exact absurd h0 (by decide)
    · refine Or.inl (goSplit_goJoin '\n' _ (List.cons_ne_nil _ _) ?_)
      intro x hx
      obtain ⟨r2, rfl, hr2⟩ := h x hx
      intro hc
      rcases List.mem_append.mp hc with hc | hc
      · exact absurd hc (by decide)
      · exact hr2 hc

theorem readIpsecPolicy_feed (name : GoStr) (L : List GoStr)
    (h : ∀ l ∈ L, ∃ r, l = setLineStart ++ r ∧ '\n' ∉ r) :
    readIpsecPolicy name (goJoin '\n' L) = ipsecLoop L ⟨name, [], []⟩ := by
  obtain ⟨hne, hsp⟩ := feed_split L h
  rw [readIpsecPolicy, if_neg hne]
  rcases hsp with hsp | ⟨rfl, hsp⟩
  · rw [hsp]
  · rw [hsp]
    rfl

theorem readIkeProposal_feed (name : GoStr) (L : List GoStr)
    (h : ∀ l ∈ L, ∃ r, l = setLineStart ++ r ∧ '\n' ∉ r) :
    readIkeProposal name (goJoin '\n' L) = ikeProposalLoop L ⟨0, name, [], [], [], []⟩ := by
  obtain ⟨hne, hsp⟩ := feed_split L h
  rw [readIkeProposal, if_neg hne]
  rcases hsp with hsp | ⟨rfl, hsp⟩
  · rw [hsp]
  · rw [hsp]
    rfl

theorem readIkePolicy_feed (name : GoStr) (L : List GoStr)
    (h : ∀ l ∈ L, ∃ r, l = setLineStart ++ r ∧ '\n' ∉ r) :
    readIkePolicy name (goJoin '\n' L) = ikePolicyLoop L ⟨name, [], [], [], []⟩ := by
  obtain ⟨hne, hsp⟩ := feed_split L h
  rw [readIkePolicy, if_neg hne]
  rcases hsp with hsp | ⟨rfl, hsp⟩
  · rw [hsp]
  · rw [hsp]
    rfl

theorem readOspfArea_feed (areaID version routingInstance : GoStr) (L : List GoStr)
    (h : ∀ l ∈ L, ∃ r, l = setLineStart ++ r ∧ '\n' ∉ r) :
    readOspfArea areaID version routingInstance (goJoin '\n' L) =
      (⟨areaID, routingInstance, version, (ospfAreaLoop L []).1⟩, (ospfAreaLoop L []).2) := by
  obtain ⟨hne, hsp⟩ := feed_split L h
  rw [readOspfArea, if_neg hne]
  rcases hsp with hsp | ⟨rfl, hsp⟩
  · rw [hsp]
  · rw [hsp]
    rfl

theorem no_marker_of_not_mem (r : GoStr) (hr : '<' ∉ r) :
    containsSub (setLineStart ++ r) confOpenMark = false ∧
      containsSub (setLineStart ++ r) confCloseMark = false := by
  have hm : '<' ∉ setLineStart ++ r := by
    intro hc
    rcases List.mem_append.mp hc with hc | hc
    · exact absurd hc (by decide)
    · exact hr hc
  exact ⟨containsSub_eq_false _ _ '<' (by decide) hm,
    containsSub_eq_false _ _ '<' (by decide) hm⟩

theorem ipsecStep_proposal (v : GoStr) (hv : '<' ∉ v) (cr : ipsecPolicyOptions) :
    ipsecStep (setLineStart ++ (proposalsKw ++ v)) cr =
      .inl { cr with proposals := cr.proposals ++ [v] } := by
  obtain ⟨h1, h2⟩ := no_marker_of_not_mem (proposalsKw ++ v) (by
    intro hc
    rcases List.mem_append.mp hc with hc | hc
    · exact absurd hc (by decide)
    · exact hv hc)
  rw [ipsecStep, h1, h2]
  simp [trimPre_append, hasPre_append]

theorem ipsecStep_pfsLine (v : GoStr) (hv : '<' ∉ v) (cr : ipsecPolicyOptions) :
    ipsecStep (setLineStart ++ (pfsKeysKw ++ v)) cr = .inl { cr with pfsKeys := v } := by
  obtain ⟨h1, h2⟩ := no_marker_of_not_mem (pfsKeysKw ++ v) (by
    intro hc
    rcases List.mem_append.mp hc with hc | hc
    · exact absurd hc (by decide)
    · exact hv hc)
  have h3 : hasPre (pfsKeysKw ++ v) proposalsKw = false := rfl
  rw [ipsecStep, h1, h2]
  simp [trimPre_append, hasPre_append, h3]

theorem ipsecLoop_cons (l : GoStr) (rest : List GoStr) (cr cr2 : ipsecPolicyOptions)
    (h : ipsecStep l cr = .inl cr2) :
    ipsecLoop (l :: rest) cr = ipsecLoop rest cr2 := by
  simp only [ipsecLoop, h]

theorem ipsecLoop_props : ∀ (ps : List GoStr) (cr : ipsecPolicyOptions),
    (∀ v ∈ ps, '<' ∉ v) →
    ipsecLoop (ps.map fun v => setLineStart ++ (proposalsKw ++ v)) cr =
      { cr with proposals := cr.proposals ++ ps } := by
  intro ps
  induction ps with
  | nil =>
    intro cr _
    simp [ipsecLoop]
  | cons v ps ih =>
    intro cr h
    rw [List.map_cons,
      ipsecLoop_cons _ _ _ _ (ipsecStep_proposal v (h v (List.mem_cons_self _ _)) cr),
      ih _ (fun x hx => h x (List.mem_cons_of_mem _ hx))]
    simp

theorem ipsecLoop_optPfs (v : GoStr) (hv : '<' ∉ v) (rest : List GoStr)
    (cr : ipsecPolicyOptions) (hcr : cr.pfsKeys = []) :
    ipsecLoop ((if v ≠ [] then [setLineStart ++ (pfsKeysKw ++ v)] else []) ++ rest) cr =
      ipsecLoop rest { cr with pfsKeys := v } := by
  by_cases hb : v = []
  · subst hb
    rw [if_neg (by simp), List.nil_append]
    rcases cr with ⟨nm, pk, pr⟩
    have hpk : pk = [] := hcr
    subst hpk
    rfl
  · rw [if_pos hb, List.singleton_append,
      ipsecLoop_cons _ _ _ _ (ipsecStep_pfsLine v hv cr)]

theorem relLine_cons_kw (pre kw v : GoStr) :
    relLine (pre ++ [' ']) ((pre ++ (' ' :: kw)) ++ v) = setLineStart ++ (kw ++ v) := by
  rw [relLine]
  congr 1
  have e : (pre ++ (' ' :: kw)) ++ v = (pre ++ [' ']) ++ (kw ++ v) := by
    simp
  rw [e, trimPre_append]

theorem setIpsecPolicy_rel (name pfs : GoStr) (props : List GoStr) :
    (setIpsecPolicy name pfs props).map
      (relLine ("set security ipsec policy ".data ++ name ++ [' '])) =
      (if pfs ≠ [] then [setLineStart ++ (pfsKeysKw ++ pfs)] else []) ++
        props.map (fun v => setLineStart ++ (proposalsKw ++ v)) := by
  show ((if pfs ≠ [] then
      [("set security ipsec policy ".data ++ name) ++
        " perfect-forward-secrecy keys ".data ++ pfs] else []) ++
      props.map fun v => ("set security ipsec policy ".data ++ name) ++
        " proposals ".data ++ v).map
      (relLine ("set security ipsec policy ".data ++ name ++ [' '])) =
    (if pfs ≠ [] then [setLineStart ++ (pfsKeysKw ++ pfs)] else []) ++
      props.map (fun v => setLineStart ++ (proposalsKw ++ v))
  rw [List.map_append]
  congr 1
  · by_cases hp : pfs = []
    · simp [hp]
    · rw [if_pos hp, if_pos hp, List.map_cons, List.map_nil]
      congr 1
      rw [show " perfect-forward-secrecy keys ".data = ' ' :: pfsKeysKw from rfl]
      exact relLine_cons_kw _ _ _
  · rw [List.map_map]
    apply List.map_congr_left
    intro v _
    show relLine ("set security ipsec policy ".data ++ name ++ [' '])
      (("set security ipsec policy ".data ++ name) ++ " proposals ".data ++ v) =
      setLineStart ++ (proposalsKw ++ v)
    rw [show " proposals ".data = ' ' :: proposalsKw from rfl]
    exact relLine_cons_kw _ _ _

theorem ipsec_roundtrip (name pfs : GoStr) (props : List GoStr)
    (hpfs : cleanVal pfs) (hprops : ∀ v ∈ props, cleanVal v) :
    readIpsecPolicy name
      (relFeed ("set security ipsec policy ".data ++ name ++ [' '])
        (setIpsecPolicy name pfs props)) =
      ⟨name, pfs, props⟩ := by
  have hshape : ∀ l ∈ ((if pfs ≠ [] then [setLineStart ++ (pfsKeysKw ++ pfs)] else []) ++
      props.map (fun v => setLineStart ++ (proposalsKw ++ v))),
      ∃ r, l = setLineStart ++ r ∧ '\n' ∉ r := by
    intro l hl
    rcases List.mem_append.mp hl with hl | hl
    · by_cases hp : pfs = []
      · rw [if_neg (by simp [hp])] at hl
        exact absurd hl (List.not_mem_nil l)
      · rw [if_pos hp, List.mem_singleton] at hl
        subst hl
        refine ⟨pfsKeysKw ++ pfs, rfl, ?_⟩
        intro hc
        rcases List.mem_append.mp hc with hc | hc
        · exact absurd hc (by decide)
        · exact hpfs.1 hc
    · rw [List.mem_map] at hl
      obtain ⟨v, hv, rfl⟩ := hl
      refine ⟨proposalsKw ++ v, rfl, ?_⟩
      intro hc
      rcases List.mem_append.mp hc with hc | hc
      · exact absurd hc (by decide)
      · exact (hprops v hv).1 hc
  rw [relFeed, setIpsecPolicy_rel, readIpsecPolicy_feed name _ hshape]
  rw [ipsecLoop_optPfs pfs hpfs.2 _ _ rfl]
  rw [ipsecLoop_props props _ (fun v hv => (hprops v hv).2)]
  rfl

theorem ikpStep_authAlg (v : GoStr) (hv : '<' ∉ v) (cr : ikeProposalOptions) :
    ikeProposalStep (setLineStart ++ (authAlgKw ++ v)) cr =
      .inl { cr with authenticationAlgorithm := v } := by
  obtain ⟨h1, h2⟩ := no_marker_of_not_mem (authAlgKw ++ v) (by
    intro hc
    rcases List.mem_append.mp hc with hc | hc
    · exact absurd hc (by decide)
    · exact hv hc)
  rw [ikeProposalStep, h1, h2]
  simp [trimPre_append, hasPre_append]

theorem ikpStep_authMeth (v : GoStr) (hv : '<' ∉ v) (cr : ikeProposalOptions) :
    ikeProposalStep (setLineStart ++ (authMethKw ++ v)) cr =
      .inl { cr with authenticationMethod := v } := by
  obtain ⟨h1, h2⟩ := no_marker_of_not_mem (authMethKw ++ v) (by
    intro hc
    rcases List.mem_append.mp hc with hc | hc
    · exact absurd hc (by decide)
    · exact hv hc)
  have h3 : hasPre (authMethKw ++ v) authAlgKw = false := rfl
  rw [ikeProposalStep, h1, h2]
  simp [trimPre_append, hasPre_append, h3]

theorem ikpStep_dhGroup (v : GoStr) (hv : '<' ∉ v) (cr : ikeProposalOptions) :
    ikeProposalStep (setLineStart ++ (dhGroupKw ++ v)) cr =
      .inl { cr with dhGroup := v } := by
  obtain ⟨h1, h2⟩ := no_marker_of_not_mem (dhGroupKw ++ v) (by
    intro hc
    rcases List.mem_append.mp hc with hc | hc
    · exact absurd hc (by decide)
    · exact hv hc)
  have h3 : hasPre (dhGroupKw ++ v) authAlgKw = false := rfl
  have h4 : hasPre (dhGroupKw ++ v) authMethKw = false := rfl
  rw [ikeProposalStep, h1, h2]
  simp [trimPre_append, hasPre_append, h3, h4]

theorem ikpStep_encAlg (v : GoStr) (hv : '<' ∉ v) (cr : ikeProposalOptions) :
    ikeProposalStep (setLineStart ++ (encAlgSpKw ++ v)) cr =
      .inl { cr with encryptionAlgorithm := v } := by
  obtain ⟨h1, h2⟩ := no_marker_of_not_mem (encAlgSpKw ++ v) (by
    intro hc
    rcases List.mem_append.mp hc with hc | hc
    · exact absurd hc (by decide)
    · exact hv hc)
  have h3 : hasPre (encAlgSpKw ++ v) authAlgKw = false := rfl
  have h4 : hasPre (encAlgSpKw ++ v) authMethKw = false := rfl
  have h5 : hasPre (encAlgSpKw ++ v) dhGroupKw = false := rfl
  have h6 : hasPre (encAlgSpKw ++ v) encAlgKw = true := rfl
  rw [ikeProposalStep, h1, h2]
  simp [trimPre_append, h3, h4, h5, h6]

theorem ikpStep_lifetime (n : Int) (hn : int64Bounded n) (cr : ikeProposalOptions) :
    ikeProposalStep (setLineStart ++ (lifetimeSpKw ++ itoaGo n)) cr =
      .inl { cr with lifetimeSeconds := n } := by
  obtain ⟨h1, h2⟩ := no_marker_of_not_mem (lifetimeSpKw ++ itoaGo n) (by
    intro hc
    rcases List.mem_append.mp hc with hc | hc
    · exact absurd hc (by decide)
    · exact (itoa_clean n).2 hc)
  have h3 : hasPre (lifetimeSpKw ++ itoaGo n) authAlgKw = false := rfl
  have h4 : hasPre (lifetimeSpKw ++ itoaGo n) authMethKw = false := rfl
  have h5 : hasPre (lifetimeSpKw ++ itoaGo n) dhGroupKw = false := rfl
  have h6 : hasPre (lifetimeSpKw ++ itoaGo n) encAlgKw = false := rfl
  have h7 : hasPre (lifetimeSpKw ++ itoaGo n) lifetimeKw = true := rfl
  rw [ikeProposalStep, h1, h2]
  simp [trimPre_append, h3, h4, h5, h6, h7, atoiGo_itoaGo n hn]

theorem ikpLoop_cons (l : GoStr) (rest : List GoStr) (cr cr2 : ikeProposalOptions)
    (h : ikeProposalStep l cr = .inl cr2) :
    ikeProposalLoop (l :: rest) cr = ikeProposalLoop rest cr2 := by
  simp only [ikeProposalLoop, h]

theorem ikpLoop_optAuthMeth (v : GoStr) (hv : '<' ∉ v) (rest : List GoStr)
    (cr : ikeProposalOptions) (hcr : cr.authenticationMethod = []) :
    ikeProposalLoop ((if v ≠ [] then [setLineStart ++ (authMethKw ++ v)] else []) ++ rest) cr =
      ikeProposalLoop rest { cr with authenticationMethod := v } := by
  by_cases hb : v = []
  · subst hb
    rw [if_neg (by simp), List.nil_append]
    rcases cr with ⟨ls0, nm, aa, am, dg, ea⟩
    have h0 : am = [] := hcr
    subst h0
    rfl
  · rw [if_pos hb, List.singleton_append, ikpLoop_cons _ _ _ _ (ikpStep_authMeth v hv cr)]

theorem ikpLoop_optAuthAlg (v : GoStr) (hv : '<' ∉ v) (rest : List GoStr)
    (cr : ikeProposalOptions) (hcr : cr.authenticationAlgorithm = []) :
    ikeProposalLoop ((if v ≠ [] then [setLineStart ++ (authAlgKw ++ v)] else []) ++ rest) cr =
      ikeProposalLoop rest { cr with authenticationAlgorithm := v } := by
  by_cases hb : v = []
  · subst hb
    rw [if_neg (by simp), List.nil_append]
    rcases cr with ⟨ls0, nm, aa, am, dg, ea⟩
    have h0 : aa = [] := hcr
    subst h0
    rfl
  · rw [if_pos hb, List.singleton_append, ikpLoop_cons _ _ _ _ (ikpStep_authAlg v hv cr)]

theorem ikpLoop_optDhGroup (v : GoStr) (hv : '<' ∉ v) (rest : List GoStr)
    (cr : ikeProposalOptions) (hcr : cr.dhGroup = []) :
    ikeProposalLoop ((if v ≠ [] then [setLineStart ++ (dhGroupKw ++ v)] else []) ++ rest) cr =
      ikeProposalLoop rest { cr with dhGroup := v } := by
  by_cases hb : v = []
  · subst hb
    rw [if_neg (by simp), List.nil_append]
    rcases cr with ⟨ls0, nm, aa, am, dg, ea⟩
    have h0 : dg = [] := hcr
    subst h0
    rfl
  · rw [if_pos hb, List.singleton_append, ikpLoop_cons _ _ _ _ (ikpStep_dhGroup v hv cr)]

theorem ikpLoop_optEncAlg (v : GoStr) (hv : '<' ∉ v) (rest : List GoStr)
    (cr : ikeProposalOptions) (hcr : cr.encryptionAlgorithm = []) :
    ikeProposalLoop ((if v ≠ [] then [setLineStart ++ (encAlgSpKw ++ v)] else []) ++ rest) cr =
      ikeProposalLoop rest { cr with encryptionAlgorithm := v } := by
  by_cases hb : v = []
  · subst hb
    rw [if_neg (by simp), List.nil_append]
    rcases cr with ⟨ls0, nm, aa, am, dg, ea⟩
    have h0 : ea = [] := hcr
    subst h0
    rfl
  · rw [if_pos hb, List.singleton_append, ikpLoop_cons _ _ _ _ (ikpStep_encAlg v hv cr)]

theorem ikpLoop_lastLifetime (n : Int) (hn : int64Bounded n) (cr : ikeProposalOptions)
    (hcr : cr.lifetimeSeconds = 0) :
    ikeProposalLoop (if n ≠ 0 then [setLineStart ++ (lifetimeSpKw ++ itoaGo n)] else []) cr =
      ({ cr with lifetimeSeconds := n }, none) := by
  by_cases hb : n = 0
  · subst hb
    rw [if_neg (by simp)]
    rcases cr with ⟨ls0, nm, aa, am, dg, ea⟩
    have h0 : ls0 = 0 := hcr
    subst h0
    rfl
  · rw [if_pos hb, ikpLoop_cons _ _ _ _ (ikpStep_lifetime n hn cr)]
    rfl

theorem mem_opt_singleton {α : Type} {c : Prop} [Decidable c] {x l : α}
    (h : l ∈ if c then [x] else []) : l = x := by
  by_cases hc : c
  · rw [if_pos hc, List.mem_singleton] at h
    exact h
  · rw [if_neg hc] at h
    exact absurd h (List.not_mem_nil l)

theorem shape_of_kw (kw v : GoStr) (hkw : '\n' ∉ kw) (hv : '\n' ∉ v) :
    ∃ r, setLineStart ++ (kw ++ v) = setLineStart ++ r ∧ '\n' ∉ r :=
  ⟨kw ++ v, rfl, by
    intro hc
    rcases List.mem_append.mp hc with hc | hc
    · exact hkw hc
    · exact hv hc⟩

theorem map_opt_rel (pre kw v lit : GoStr) (hlit : lit = ' ' :: kw)
    (c : Prop) [Decidable c] :
    ((if c then [pre ++ lit ++ v] else []).map (relLine (pre ++ [' ']))) =
      (if c then [setLineStart ++ (kw ++ v)] else []) := by
  by_cases h : c
  · rw [if_pos h, if_pos h, List.map_cons, List.map_nil]
    congr 1
    rw [hlit]
    exact relLine_cons_kw _ _ _
  · rw [if_neg h, if_neg h, List.map_nil]

theorem setIkeProposal_rel (name aa am dg ea : GoStr) (ls : Int) :
    (setIkeProposal name aa am dg ea ls).map
      (relLine ("set security ike proposal ".data ++ name ++ [' '])) =
      (if am ≠ [] then [setLineStart ++ (authMethKw ++ am)] else []) ++
        ((if aa ≠ [] then [setLineStart ++ (authAlgKw ++ aa)] else []) ++
          ((if dg ≠ [] then [setLineStart ++ (dhGroupKw ++ dg)] else []) ++
            ((if ea ≠ [] then [setLineStart ++ (encAlgSpKw ++ ea)] else []) ++
              (if ls ≠ 0 then [setLineStart ++ (lifetimeSpKw ++ itoaGo ls)] else [])))) := by
  show ((if am ≠ [] then
      [("set security ike proposal ".data ++ name) ++ " authentication-method ".data ++ am]
    else []) ++
    (if aa ≠ [] then
      [("set security ike proposal ".data ++ name) ++ " authentication-algorithm ".data ++ aa]
    else []) ++
    (if dg ≠ [] then
      [("set security ike proposal ".data ++ name) ++ " dh-group ".data ++ dg] else []) ++
    (if ea ≠ [] then
      [("set security ike proposal ".data ++ name) ++ " encryption-algorithm ".data ++ ea]
    else []) ++
    (if ls ≠ 0 then
      [("set security ike proposal ".data ++ name) ++ " lifetime-seconds ".data ++ itoaGo ls]
    else [])).map (relLine ("set security ike proposal ".data ++ name ++ [' '])) = _
  rw [List.map_append, List.map_append, List.map_append, List.map_append]
  rw [map_opt_rel _ authMethKw _ _
      (show " authentication-method ".data = ' ' :: authMethKw from rfl),
    map_opt_rel _ authAlgKw _ _
      (show " authentication-algorithm ".data = ' ' :: authAlgKw from rfl),
    map_opt_rel _ dhGroupKw _ _ (show " dh-group ".data = ' ' :: dhGroupKw from rfl),
    map_opt_rel _ encAlgSpKw _ _
      (show " encryption-algorithm ".data = ' ' :: encAlgSpKw from rfl),
    map_opt_rel _ lifetimeSpKw _ _
      (show " lifetime-seconds ".data = ' ' :: lifetimeSpKw from rfl)]
  simp [List.append_assoc]

theorem ikeProposal_roundtrip (name aa am dg ea : GoStr) (ls : Int)
    (haa : cleanVal aa) (ham : cleanVal am) (hdg : cleanVal dg) (hea : cleanVal ea)
    (hls : int64Bounded ls) :
    readIkeProposal name
      (relFeed ("set security ike proposal ".data ++ name ++ [' '])
        (setIkeProposal name aa am dg ea ls)) =
      (⟨ls, name, aa, am, dg, ea⟩, none) := by
  have hshape : ∀ l ∈ ((if am ≠ [] then [setLineStart ++ (authMethKw ++ am)] else []) ++
      ((if aa ≠ [] then [setLineStart ++ (authAlgKw ++ aa)] else []) ++
        ((if dg ≠ [] then [setLineStart ++ (dhGroupKw ++ dg)] else []) ++
          ((if ea ≠ [] then [setLineStart ++ (encAlgSpKw ++ ea)] else []) ++
            (if ls ≠ 0 then [setLineStart ++ (lifetimeSpKw ++ itoaGo ls)] else []))))),
      ∃ r, l = setLineStart ++ r ∧ '\n' ∉ r := by
    intro l hl
    rcases List.mem_append.mp hl with hl | hl
    · obtain rfl := mem_opt_singleton hl
      exact shape_of_kw _ _ (by decide) ham.1
    rcases List.mem_append.mp hl with hl | hl
    · obtain rfl := mem_opt_singleton hl
      exact shape_of_kw _ _ (by decide) haa.1
    rcases List.mem_append.mp hl with hl | hl
    · obtain rfl := mem_opt_singleton hl
      exact shape_of_kw _ _ (by decide) hdg.1
    rcases List.mem_append.mp hl with hl | hl
    · obtain rfl := mem_opt_singleton hl
      exact shape_of_kw _ _ (by decide) hea.1
    · obtain rfl := mem_opt_singleton hl
      exact shape_of_kw _ _ (by decide) (itoa_clean ls).1
  rw [relFeed, setIkeProposal_rel, readIkeProposal_feed name _ hshape]
  rw [ikpLoop_optAuthMeth am ham.2 _ _ rfl]
  rw [ikpLoop_optAuthAlg aa haa.2 _ _ rfl]
  rw [ikpLoop_optDhGroup dg hdg.2 _ _ rfl]
  rw [ikpLoop_optEncAlg ea hea.2 _ _ rfl]
  rw [ikpLoop_lastLifetime ls hls _ rfl]

theorem ikplStep_mode (v : GoStr) (hv : '<' ∉ v) (cr : ikePolicyOptions) :
    ikePolicyStep (setLineStart ++ (modeKw ++ v)) cr = .inl { cr with mode := v } := by
  obtain ⟨h1, h2⟩ := no_marker_of_not_mem (modeKw ++ v) (by
    intro hc
    rcases List.mem_append.mp hc with hc | hc
    · exact absurd hc (by decide)
    · exact hv hc)
  rw [ikePolicyStep, h1, h2]
  simp [trimPre_append, hasPre_append]

theorem ikplStep_proposal (v : GoStr) (hv : '<' ∉ v) (cr : ikePolicyOptions) :
    ikePolicyStep (setLineStart ++ (proposalsKw ++ v)) cr =
      .inl { cr with proposals := cr.proposals ++ [v] } := by
  obtain ⟨h1, h2⟩ := no_marker_of_not_mem (proposalsKw ++ v) (by
    intro hc
    rcases List.mem_append.mp hc with hc | hc
    · exact absurd hc (by decide)
    · exact hv hc)
  have h3 : hasPre (proposalsKw ++ v) modeKw = false := rfl
  rw [ikePolicyStep, h1, h2]
  simp [trimPre_append, hasPre_append, h3]

theorem ikplLoop_cons (l : GoStr) (rest : List GoStr) (cr cr2 : ikePolicyOptions)
    (h : ikePolicyStep l cr = .inl cr2) :
    ikePolicyLoop (l :: rest) cr = ikePolicyLoop rest cr2 := by
  simp only [ikePolicyLoop, h]

theorem ikplLoop_optMode (v : GoStr) (hv : '<' ∉ v) (rest : List GoStr)
    (cr : ikePolicyOptions) (hcr : cr.mode = []) :
    ikePolicyLoop ((if v ≠ [] then [setLineStart ++ (modeKw ++ v)] else []) ++ rest) cr =
      ikePolicyLoop rest { cr with mode := v } := by
  by_cases hb : v = []
  · subst hb
    rw [if_neg (by simp), List.nil_append]
    rcases cr with ⟨nm, md, pt, ph, pr⟩
    have h0 : md = [] := hcr
    subst h0
    rfl
  · rw [if_pos hb, List.singleton_append, ikplLoop_cons _ _ _ _ (ikplStep_mode v hv cr)]

theorem ikplLoop_props : ∀ (ps : List GoStr) (cr : ikePolicyOptions),
    (∀ v ∈ ps, '<' ∉ v) →
    ikePolicyLoop (ps.map fun v => setLineStart ++ (proposalsKw ++ v)) cr =
      ({ cr with proposals := cr.proposals ++ ps }, none) := by
  intro ps
  induction ps with
  | nil =>
    intro cr _
    simp [ikePolicyLoop]
  | cons v ps ih =>
    intro cr h
    rw [List.map_cons,
      ikplLoop_cons _ _ _ _ (ikplStep_proposal v (h v (List.mem_cons_self _ _)) cr),
      ih _ (fun x hx => h x (List.mem_cons_of_mem _ hx))]
    simp

theorem setIkePolicy_ok (name mode : GoStr) (props : List GoStr)
    (hm : mode = [] ∨ mode = "main".data ∨ mode = "aggressive".data) :
    setIkePolicy name mode props [] [] = .ok
      ((if mode ≠ [] then
        [("set security ike policy ".data ++ name) ++ " mode ".data ++ mode] else []) ++
        props.map (fun v =>
          ("set security ike policy ".data ++ name) ++ " proposals ".data ++ v)) := by
  have hcond : ¬(mode ≠ [] ∧ mode ≠ "main".data ∧ mode ≠ "aggressive".data) := by
    rcases hm with hm | hm | hm <;> · intro hx; rcases hx with ⟨h1, h2, h3⟩; simp_all
  show (if mode ≠ [] ∧ mode ≠ "main".data ∧ mode ≠ "aggressive".data then
      Except.error ("unknown ike mode ".data ++ mode)
    else .ok ((if mode ≠ [] then
        [("set security ike policy ".data ++ name) ++ " mode ".data ++ mode] else []) ++
      props.map (fun v =>
        ("set security ike policy ".data ++ name) ++ " proposals ".data ++ v) ++
      (if ([] : GoStr) ≠ [] then
        [("set security ike policy ".data ++ name) ++
          " pre-shared-key ascii-text ".data ++ ([] : GoStr)] else []) ++
      (if ([] : GoStr) ≠ [] then
        [("set security ike policy ".data ++ name) ++
          " pre-shared-key hexadecimal ".data ++ ([] : GoStr)] else []))) = _
  rw [if_neg hcond,
    if_neg (show ¬(([] : GoStr) ≠ []) from by simp),
    if_neg (show ¬(([] : GoStr) ≠ []) from by simp),
    List.append_nil, List.append_nil]

theorem setIkePolicyLines_rel (name mode : GoStr) (props : List GoStr) :
    ((if mode ≠ [] then
      [("set security ike policy ".data ++ name) ++ " mode ".data ++ mode] else []) ++
      props.map (fun v =>
        ("set security ike policy ".data ++ name) ++ " proposals ".data ++ v)).map
      (relLine ("set security ike policy ".data ++ name ++ [' '])) =
      (if mode ≠ [] then [setLineStart ++ (modeKw ++ mode)] else []) ++
        props.map (fun v => setLineStart ++ (proposalsKw ++ v)) := by
  rw [List.map_append]
  congr 1
  · exact map_opt_rel _ modeKw _ _ (show " mode ".data = ' ' :: modeKw from rfl) _
  · rw [List.map_map]
    apply List.map_congr_left
    intro v _
    show relLine ("set security ike policy ".data ++ name ++ [' '])
      (("set security ike policy ".data ++ name) ++ " proposals ".data ++ v) =
      setLineStart ++ (proposalsKw ++ v)
    rw [show " proposals ".data = ' ' :: proposalsKw from rfl]
    exact relLine_cons_kw _ _ _

theorem ikePolicy_roundtrip (name mode : GoStr) (props : List GoStr) (L : List GoStr)
    (hm : mode = [] ∨ mode = "main".data ∨ mode = "aggressive".data)
    (hmode : cleanVal mode) (hprops : ∀ v ∈ props, cleanVal v)
    (hok : setIkePolicy name mode props [] [] = .ok L) :
    readIkePolicy name (relFeed ("set security ike policy ".data ++ name ++ [' ']) L) =
      (⟨name, mode, [], [], props⟩, none) := by
  rw [setIkePolicy_ok name mode props hm] at hok
  injection hok with hL
  subst hL
  have hshape : ∀ l ∈ ((if mode ≠ [] then [setLineStart ++ (modeKw ++ mode)] else []) ++
      props.map (fun v => setLineStart ++ (proposalsKw ++ v))),
      ∃ r, l = setLineStart ++ r ∧ '\n' ∉ r := by
    intro l hl
    rcases List.mem_append.mp hl with hl | hl
    · obtain rfl := mem_opt_singleton hl
      exact shape_of_kw _ _ (by decide) hmode.1
    · rw [List.mem_map] at hl
      obtain ⟨v, hv, rfl⟩ := hl
      exact shape_of_kw _ _ (by decide) (hprops v hv).1
  rw [relFeed, setIkePolicyLines_rel, readIkePolicy_feed name _ hshape]
  rw [ikplLoop_optMode mode hmode.2 _ _ rfl]
  rw [ikplLoop_props props _ (fun v hv => (hprops v hv).2)]
  rfl

theorem applyOspfField_name (f : OspfField) (r : ospfInterface) :
    (applyOspfField f r).name = r.name := by
  cases f <;> rfl

theorem append_itoa_clean (kw : GoStr) (hkw1 : '\n' ∉ kw) (hkw2 : '<' ∉ kw) (n : Int) :
    '\n' ∉ kw ++ itoaGo n ∧ '<' ∉ kw ++ itoaGo n := by
  refine ⟨fun hc => ?_, fun hc => ?_⟩
  · rcases List.mem_append.mp hc with hc | hc
    · exact hkw1 hc
    · exact (itoa_clean n).1 hc
  · rcases List.mem_append.mp hc with hc | hc
    · exact hkw2 hc
    · exact (itoa_clean n).2 hc

theorem ospfFieldSuffix_clean (f : OspfField) :
    '\n' ∉ ospfFieldSuffix f ∧ '<' ∉ ospfFieldSuffix f := by
  cases f with
  | disable => exact ⟨by decide, by decide⟩
  | passive => exact ⟨by decide, by decide⟩
  | metric n => exact append_itoa_clean metricKw (by decide) (by decide) n
  | hello n => exact append_itoa_clean helloKw (by decide) (by decide) n
  | retrans n => exact append_itoa_clean retransKw (by decide) (by decide) n
  | dead n => exact append_itoa_clean deadKw (by decide) (by decide) n

theorem copy_absent (m : ospfInterface) :
    ∀ acc : List ospfInterface, (∀ e ∈ acc, e.name ≠ m.name) →
      copyAndRemoveItemMapList m acc = (m, acc) := by
  intro acc
  induction acc with
  | nil => intro _; rfl
  | cons e rest ih =>
    intro h
    simp only [copyAndRemoveItemMapList]
    rw [if_neg (h e (List.mem_cons_self _ _))]
    rw [ih (fun x hx => h x (List.mem_cons_of_mem _ hx))]

theorem copy_at_end (m cur : ospfInterface) (hname : cur.name = m.name) :
    ∀ acc : List ospfInterface, (∀ e ∈ acc, e.name ≠ m.name) →
      copyAndRemoveItemMapList m (acc ++ [cur]) = (cur, acc) := by
  intro acc
  induction acc with
  | nil =>
    intro _
    simp only [List.nil_append, copyAndRemoveItemMapList]
    rw [if_pos hname]
  | cons e rest ih =>
    intro h
    simp only [List.cons_append, copyAndRemoveItemMapList, List.append_eq]
    rw [if_neg (h e (List.mem_cons_self _ _))]
    rw [ih (fun x hx => h x (List.mem_cons_of_mem _ hx))]

theorem ospfIfaceNameOf_rel (nm sfx : GoStr) (hnm : ' ' ∉ nm) :
    ospfIfaceNameOf (ospfRelLine nm sfx) = some nm := by
  have hsp := goSplit_append_sep ' ' nm sfx hnm
  simp [ospfIfaceNameOf, ospfRelLine, trimPre_append, hasPre_append, hsp]

theorem ospfALoop_cons (l : GoStr) (rest : List GoStr) (acc acc2 : List ospfInterface)
    (h : ospfAreaStep l acc = .inl acc2) :
    ospfAreaLoop (l :: rest) acc = ospfAreaLoop rest acc2 := by
  simp only [ospfAreaLoop, h]

theorem ospfAreaStep_field (nm : GoStr) (hnm : ' ' ∉ nm ∧ '<' ∉ nm) (f : OspfField)
    (hbf : ospfFieldBounded f) (acc : List ospfInterface) :
    ospfAreaStep (ospfRelLine nm (ospfFieldSuffix f)) acc =
      .inl ((copyAndRemoveItemMapList (freshOspfInterface nm) acc).2 ++
        [applyOspfField f (copyAndRemoveItemMapList (freshOspfInterface nm) acc).1]) := by
  have hr : '<' ∉ interfaceKw ++ (nm ++ (' ' :: ospfFieldSuffix f)) := by
    intro hc
    rcases List.mem_append.mp hc with hc | hc
    · exact absurd hc (by decide)
    rcases List.mem_append.mp hc with hc | hc
    · exact hnm.2 hc
    rcases List.mem_cons.mp hc with hc | hc
    · exact absurd hc (by decide)
    · exact (ospfFieldSuffix_clean f).2 hc
  obtain ⟨h1, h2⟩ := no_marker_of_not_mem _ hr
  have hname : ospfIfaceNameOf
      (setLineStart ++ (interfaceKw ++ (nm ++ (' ' :: ospfFieldSuffix f)))) = some nm :=
    ospfIfaceNameOf_rel nm _ hnm.1
  have htrim : trimPre (interfaceKw ++ (nm ++ (' ' :: ospfFieldSuffix f)))
      (interfaceKw ++ nm ++ [' ']) = ospfFieldSuffix f := by
    rw [show interfaceKw ++ (nm ++ (' ' :: ospfFieldSuffix f)) =
      (interfaceKw ++ nm ++ [' ']) ++ ospfFieldSuffix f from by simp, trimPre_append]
  rw [show ospfRelLine nm (ospfFieldSuffix f) =
    setLineStart ++ (interfaceKw ++ (nm ++ (' ' :: ospfFieldSuffix f))) from rfl]
  rw [ospfAreaStep, h1, h2, hname]
  cases f with
  | disable =>
    have ha : hasPre disableKw disableKw = true := rfl
    simp only [ospfFieldSuffix] at htrim ⊢
    simp only [trimPre_append, htrim, ha, applyOspfField]
    simp
  | passive =>
    have ha : hasPre passiveKw disableKw = false := rfl
    have hb : hasPre passiveKw passiveKw = true := rfl
    simp only [ospfFieldSuffix] at htrim ⊢
    simp only [trimPre_append, htrim, ha, hb, applyOspfField]
    simp
  | metric n =>
    have ha : hasPre (metricKw ++ itoaGo n) disableKw = false := rfl
    have hb : hasPre (metricKw ++ itoaGo n) passiveKw = false := rfl
    have hbn : int64Bounded n := hbf
    simp only [ospfFieldSuffix] at htrim ⊢
    simp only [trimPre_append, htrim, ha, hb, hasPre_append, atoiGo_itoaGo n hbn,
      applyOspfField]
    simp
  | hello n =>
    have ha : hasPre (helloKw ++ itoaGo n) disableKw = false := rfl
    have hb : hasPre (helloKw ++ itoaGo n) passiveKw = false := rfl
    have hcm : hasPre (helloKw ++ itoaGo n) metricKw = false := rfl
    have hbn : int64Bounded n := hbf
    simp only [ospfFieldSuffix] at htrim ⊢
    simp only [trimPre_append, htrim, ha, hb, hcm, hasPre_append, atoiGo_itoaGo n hbn,
      applyOspfField]
    simp
  | retrans n =>
    have ha : hasPre (retransKw ++ itoaGo n) disableKw = false := rfl
    have hb : hasPre (retransKw ++ itoaGo n) passiveKw = false := rfl
    have hcm : hasPre (retransKw ++ itoaGo n) metricKw = false := rfl
    have hd : hasPre (retransKw ++ itoaGo n) helloKw = false := rfl
    have hbn : int64Bounded n := hbf
    simp only [ospfFieldSuffix] at htrim ⊢
    simp only [trimPre_append, htrim, ha, hb, hcm, hd, hasPre_append, atoiGo_itoaGo n hbn,
      applyOspfField]
    simp
  | dead n =>
    have ha : hasPre (deadKw ++ itoaGo n) disableKw = false := rfl
    have hb : hasPre (deadKw ++ itoaGo n) passiveKw = false := rfl
    have hcm : hasPre (deadKw ++ itoaGo n) metricKw = false := rfl
    have hd : hasPre (deadKw ++ itoaGo n) helloKw = false := rfl
    have he : hasPre (deadKw ++ itoaGo n) retransKw = false := rfl
    have hbn : int64Bounded n := hbf
    simp only [ospfFieldSuffix] at htrim ⊢
    simp only [trimPre_append, htrim, ha, hb, hcm, hd, he, hasPre_append,
      atoiGo_itoaGo n hbn, applyOspfField]
    simp

theorem ospf_chunk (nm : GoStr) (hnm : ' ' ∉ nm ∧ '<' ∉ nm) :
    ∀ (fs : List OspfField) (rest : List GoStr) (acc : List ospfInterface)
      (cur : ospfInterface), (∀ g ∈ fs, ospfFieldBounded g) →
      cur.name = nm → (∀ e ∈ acc, e.name ≠ nm) →
      ospfAreaLoop ((fs.map fun f => ospfRelLine nm (ospfFieldSuffix f)) ++ rest)
          (acc ++ [cur]) =
        ospfAreaLoop rest (acc ++ [fs.foldl (fun r f => applyOspfField f r) cur]) := by
  intro fs
  induction fs with
  | nil =>
    intro rest acc cur _ _ _
    simp
  | cons f fs ih =>
    intro rest acc cur hbs hcur hacc
    rw [List.map_cons, List.cons_append]
    have hstep := ospfAreaStep_field nm hnm f (hbs f (List.mem_cons_self _ _)) (acc ++ [cur])
    have hcopy : copyAndRemoveItemMapList (freshOspfInterface nm) (acc ++ [cur]) =
        (cur, acc) := copy_at_end _ cur hcur acc hacc
    rw [hcopy] at hstep
    rw [ospfALoop_cons _ _ _ _ hstep]
    rw [ih rest acc (applyOspfField f cur) (fun g hg => hbs g (List.mem_cons_of_mem _ hg))
      (by rw [applyOspfField_name, hcur]) hacc]
    rw [List.foldl_cons]

theorem ospfIfaceFields_ne (i : ospfInterface) (h : ospfIfaceHasField i = true) :
    ospfIfaceFields i ≠ [] := by
  rw [ospfIfaceHasField] at h
  simp only [Bool.or_eq_true, bne_iff_ne] at h
  rw [ospfIfaceFields]
  rcases h with ((((h | h) | h) | h) | h) | h <;> simp [h]

theorem foldl_fields (i : ospfInterface) :
    (ospfIfaceFields i).foldl (fun r f => applyOspfField f r) (freshOspfInterface i.name) =
      i := by
  rcases i with ⟨nm, d, p, m, h, r, dd⟩
  rcases d <;> rcases p <;>
    by_cases hm : m = 0 <;> by_cases hh : h = 0 <;> by_cases hr : r = 0 <;>
    by_cases hd : dd = 0 <;>
    simp [ospfIfaceFields, applyOspfField, freshOspfInterface, hm, hh, hr, hd]

theorem ospfIfaceFields_bounded (i : ospfInterface) (h : ospfIfaceBounded i) :
    ∀ f ∈ ospfIfaceFields i, ospfFieldBounded f := by
  intro f hf
  rw [ospfIfaceFields] at hf
  simp only [List.mem_append] at hf
  rcases hf with (((((hf | hf) | hf) | hf) | hf) | hf)
  · obtain rfl := mem_opt_singleton hf
    trivial
  · obtain rfl := mem_opt_singleton hf
    trivial
  · obtain rfl := mem_opt_singleton hf
    exact h.1
  · obtain rfl := mem_opt_singleton hf
    exact h.2.1
  · obtain rfl := mem_opt_singleton hf
    exact h.2.2.1
  · obtain rfl := mem_opt_singleton hf
    exact h.2.2.2

theorem ospf_block (i : ospfInterface) (hnm : ' ' ∉ i.name ∧ '<' ∉ i.name)
    (hfield : ospfIfaceHasField i = true) (hbd : ospfIfaceBounded i)
    (rest : List GoStr) (acc : List ospfInterface)
    (hacc : ∀ e ∈ acc, e.name ≠ i.name) :
    ospfAreaLoop
        (((ospfIfaceFields i).map fun f => ospfRelLine i.name (ospfFieldSuffix f)) ++ rest)
        acc =
      ospfAreaLoop rest (acc ++ [i]) := by
  have hbs := ospfIfaceFields_bounded i hbd
  rcases hfs : ospfIfaceFields i with _ | ⟨f0, fs⟩
  · exact absurd hfs (ospfIfaceFields_ne i hfield)
  rw [hfs] at hbs
  rw [List.map_cons, List.cons_append]
  have hstep := ospfAreaStep_field i.name hnm f0 (hbs f0 (List.mem_cons_self _ _)) acc
  rw [copy_absent (freshOspfInterface i.name) acc hacc] at hstep
  rw [ospfALoop_cons _ _ _ _ hstep]
  have hfold := foldl_fields i
  rw [hfs, List.foldl_cons] at hfold
  have happ : acc ++ [applyOspfField f0 (freshOspfInterface i.name)] =
      acc ++ [] ++ [applyOspfField f0 (freshOspfInterface i.name)] := by simp
  rw [happ]
  rw [ospf_chunk i.name hnm fs rest (acc ++ []) _
    (fun g hg => hbs g (List.mem_cons_of_mem _ hg))
    (by rw [applyOspfField_name]; rfl) (by simpa using hacc)]
  rw [hfold]
  simp

theorem ospf_blocks : ∀ (ifs : List ospfInterface) (acc : List ospfInterface),
    (∀ i ∈ ifs, (' ' ∉ i.name ∧ '<' ∉ i.name) ∧ ospfIfaceHasField i = true) →
    (∀ i ∈ ifs, ospfIfaceBounded i) →
    (∀ i ∈ ifs, ∀ e ∈ acc, e.name ≠ i.name) →
    ((ifs.map fun i => i.name).Nodup) →
    ospfAreaLoop (ifs.flatMap fun i =>
        (ospfIfaceFields i).map fun f => ospfRelLine i.name (ospfFieldSuffix f)) acc =
      (acc ++ ifs, none) := by
  intro ifs
  induction ifs with
  | nil =>
    intro acc _ _ _ _
    simp [ospfAreaLoop]
  | cons i ifs ih =>
    intro acc hclean hbd hacc hnodup
    have h1 := hclean i (List.mem_cons_self _ _)
    have h2 := hacc i (List.mem_cons_self _ _)
    have hnd : i.name ∉ ifs.map (fun j => j.name) ∧ ((ifs.map fun j => j.name).Nodup) := by
      rw [List.map_cons, List.nodup_cons] at hnodup
      exact hnodup
    have hacc2 : ∀ j ∈ ifs, ∀ e ∈ acc ++ [i], e.name ≠ j.name := by
      intro j hj e he
      rcases List.mem_append.mp he with he | he
      · exact hacc j (List.mem_cons_of_mem _ hj) e he
      · rw [List.mem_singleton] at he
        subst he
        intro hx
        exact hnd.1 (by rw [hx]; exact List.mem_map_of_mem _ hj)
    simp only [List.flatMap_cons]
    rw [ospf_block i h1.1 h1.2 (hbd i (List.mem_cons_self _ _)) _ acc h2]
    rw [ih (acc ++ [i]) (fun j hj => hclean j (List.mem_cons_of_mem _ hj))
      (fun j hj => hbd j (List.mem_cons_of_mem _ hj)) hacc2 hnd.2]
    simp

theorem relLine_ospf (pre nm sfx : GoStr) :
    relLine pre (pre ++ interfaceKw ++ nm ++ [' '] ++ sfx) = ospfRelLine nm sfx := by
  rw [relLine, ospfRelLine]
  congr 1
  have e : pre ++ interfaceKw ++ nm ++ [' '] ++ sfx =
      pre ++ (interfaceKw ++ (nm ++ (' ' :: sfx))) := by
    simp
  rw [e, trimPre_append]

theorem map_opt_iface (pre nm sfx : GoStr) (c : Prop) [Decidable c] :
    ((if c then [pre ++ interfaceKw ++ nm ++ [' '] ++ sfx] else []).map (relLine pre)) =
      (if c then [ospfRelLine nm sfx] else []) := by
  by_cases h : c
  · rw [if_pos h, if_pos h, List.map_cons, List.map_nil]
    congr 1
    exact relLine_ospf pre nm sfx
  · rw [if_neg h, if_neg h, List.map_nil]

theorem map_opt_iface2 (pre nm kw : GoStr) (n : Int) (c : Prop) [Decidable c] :
    ((if c then [pre ++ interfaceKw ++ nm ++ [' '] ++ kw ++ itoaGo n] else []).map
        (relLine pre)) =
      (if c then [ospfRelLine nm (kw ++ itoaGo n)] else []) := by
  by_cases h : c
  · rw [if_pos h, if_pos h, List.map_cons, List.map_nil]
    congr 1
    rw [show pre ++ interfaceKw ++ nm ++ [' '] ++ kw ++ itoaGo n =
      pre ++ interfaceKw ++ nm ++ [' '] ++ (kw ++ itoaGo n) from by simp]
    exact relLine_ospf pre nm _
  · rw [if_neg h, if_neg h, List.map_nil]

theorem map_opt_fld (g : OspfField → GoStr) (c : Prop) [Decidable c] (x : OspfField) :
    ((if c then [x] else []).map g) = (if c then [g x] else []) := by
  by_cases h : c <;> simp [h]

theorem iface_block_rel (pre : GoStr) (i : ospfInterface) :
    (((if i.disable = true then [pre ++ interfaceKw ++ i.name ++ [' '] ++ disableKw]
        else []) ++
      (if i.passive = true then [pre ++ interfaceKw ++ i.name ++ [' '] ++ passiveKw]
        else []) ++
      (if i.metric ≠ 0 then
        [pre ++ interfaceKw ++ i.name ++ [' '] ++ metricKw ++ itoaGo i.metric] else []) ++
      (if i.helloInterval ≠ 0 then
        [pre ++ interfaceKw ++ i.name ++ [' '] ++ helloKw ++ itoaGo i.helloInterval]
        else []) ++
      (if i.retransmitInterval ≠ 0 then
        [pre ++ interfaceKw ++ i.name ++ [' '] ++ retransKw ++ itoaGo i.retransmitInterval]
        else []) ++
      (if i.deadInterval ≠ 0 then
        [pre ++ interfaceKw ++ i.name ++ [' '] ++ deadKw ++ itoaGo i.deadInterval]
        else [])).map (relLine pre)) =
      (ospfIfaceFields i).map fun f => ospfRelLine i.name (ospfFieldSuffix f) := by
  rw [List.map_append, List.map_append, List.map_append, List.map_append, List.map_append]
  rw [map_opt_iface pre i.name disableKw _, map_opt_iface pre i.name passiveKw _,
    map_opt_iface2 pre i.name metricKw i.metric _,
    map_opt_iface2 pre i.name helloKw i.helloInterval _,
    map_opt_iface2 pre i.name retransKw i.retransmitInterval _,
    map_opt_iface2 pre i.name deadKw i.deadInterval _]
  rw [ospfIfaceFields]
  rw [List.map_append, List.map_append, List.map_append, List.map_append, List.map_append]
  rw [map_opt_fld, map_opt_fld, map_opt_fld, map_opt_fld, map_opt_fld, map_opt_fld]
  rfl

theorem setOspfArea_rel (areaID version routingInstance : GoStr) :
    ∀ ifs : List ospfInterface,
      (setOspfArea areaID version routingInstance ifs).map
        (relLine (ospfSetPre areaID version routingInstance)) =
      ifs.flatMap fun i =>
        (ospfIfaceFields i).map fun f => ospfRelLine i.name (ospfFieldSuffix f) := by
  intro ifs
  induction ifs with
  | nil => rfl
  | cons i ifs ih =>
    have hcons : setOspfArea areaID version routingInstance (i :: ifs) =
        ((if i.disable = true then
            [ospfSetPre areaID version routingInstance ++ interfaceKw ++ i.name ++ [' '] ++
              disableKw] else []) ++
          (if i.passive = true then
            [ospfSetPre areaID version routingInstance ++ interfaceKw ++ i.name ++ [' '] ++
              passiveKw] else []) ++
          (if i.metric ≠ 0 then
            [ospfSetPre areaID version routingInstance ++ interfaceKw ++ i.name ++ [' '] ++
              metricKw ++ itoaGo i.metric] else []) ++
          (if i.helloInterval ≠ 0 then
            [ospfSetPre areaID version routingInstance ++ interfaceKw ++ i.name ++ [' '] ++
              helloKw ++ itoaGo i.helloInterval] else []) ++
          (if i.retransmitInterval ≠ 0 then
            [ospfSetPre areaID version routingInstance ++ interfaceKw ++ i.name ++ [' '] ++
              retransKw ++ itoaGo i.retransmitInterval] else []) ++
          (if i.deadInterval ≠ 0 then
            [ospfSetPre areaID version routingInstance ++ interfaceKw ++ i.name ++ [' '] ++
              deadKw ++ itoaGo i.deadInterval] else [])) ++
          setOspfArea areaID version routingInstance ifs := rfl
    rw [hcons, List.map_append, iface_block_rel, ih, List.flatMap_cons]

theorem ospf_roundtrip (areaID version routingInstance : GoStr)
    (ifs : List ospfInterface)
    (hclean : ∀ i ∈ ifs, '\n' ∉ i.name ∧ ' ' ∉ i.name ∧ '<' ∉ i.name)
    (hfield : ∀ i ∈ ifs, ospfIfaceHasField i = true)
    (hbd : ∀ i ∈ ifs, ospfIfaceBounded i)
    (hnodup : ((ifs.map fun i => i.name).Nodup)) :
    readOspfArea areaID version routingInstance
      (relFeed (ospfSetPre areaID version routingInstance)
        (setOspfArea areaID version routingInstance ifs)) =
      (⟨areaID, routingInstance, version, ifs⟩, none) := by
  have hshape : ∀ l ∈ (ifs.flatMap fun i =>
      (ospfIfaceFields i).map fun f => ospfRelLine i.name (ospfFieldSuffix f)),
      ∃ r, l = setLineStart ++ r ∧ '\n' ∉ r := by
    intro l hl
    rw [List.mem_flatMap] at hl
    obtain ⟨i, hi, hl⟩ := hl
    rw [List.mem_map] at hl
    obtain ⟨f, _, rfl⟩ := hl
    refine ⟨interfaceKw ++ (i.name ++ (' ' :: ospfFieldSuffix f)), rfl, ?_⟩
    intro hc
    rcases List.mem_append.mp hc with hc | hc
    · exact absurd hc (by decide)
    rcases List.mem_append.mp hc with hc | hc
    · exact (hclean i hi).1 hc
    rcases List.mem_cons.mp hc with hc | hc
    · exact absurd hc (by decide)
    · exact (ospfFieldSuffix_clean f).1 hc
  rw [relFeed, setOspfArea_rel, readOspfArea_feed areaID version routingInstance _ hshape]
  rw [ospf_blocks ifs []
    (fun i hi => ⟨⟨(hclean i hi).2.1, (hclean i hi).2.2⟩, hfield i hi⟩) hbd
    (fun i _ e he => absurd he (List.not_mem_nil e)) hnodup]
  simp

/-- C4 counterexample: an ospf-area record whose single interface sets no
sub-field beyond its name encodes to no lines at all, so decoding the encoded
output loses the interface: the round-trip is not the identity on every
record without unset-but-zero-meaningful fields. -/
theorem c4_roundtrip_counterexample :
    readOspfArea "0".data "v2".data defaultWord
      (relFeed (ospfSetPre "0".data "v2".data defaultWord)
        (setOspfArea "0".data "v2".data defaultWord [freshOspfInterface "e0".data])) ≠
      (⟨"0".data, defaultWord, "v2".data, [freshOspfInterface "e0".data]⟩, none) := by
  decide

/-- C4 (corrected): for each of the four resources, decoding the encoder's
line set - each line seen relative to the object's own path prefix, with the
`set ` statement keyword kept, joined into the raw text a scoped read query
returns - reproduces the original record, provided the field values are free
of line breaks and of the marker character, the integer fields lie within
the 64-bit range of the Go record types holding them, the ike-policy secrets
are unset and its mode valid, and every ospf interface has a space-free
unique name and at least one explicitly-set sub-field. -/
theorem c4_roundtrip :
    (∀ (name pfs : GoStr) (props : List GoStr), cleanVal pfs →
      (∀ v ∈ props, cleanVal v) →
      readIpsecPolicy name
        (relFeed ("set security ipsec policy ".data ++ name ++ [' '])
          (setIpsecPolicy name pfs props)) = ⟨name, pfs, props⟩) ∧
    (∀ (name aa am dg ea : GoStr) (ls : Int), cleanVal aa → cleanVal am →
      cleanVal dg → cleanVal ea → int64Bounded ls →
      readIkeProposal name
        (relFeed ("set security ike proposal ".data ++ name ++ [' '])
          (setIkeProposal name aa am dg ea ls)) = (⟨ls, name, aa, am, dg, ea⟩, none)) ∧
    (∀ (name mode : GoStr) (props L : List GoStr),
      (mode = [] ∨ mode = "main".data ∨ mode = "aggressive".data) → cleanVal mode →
      (∀ v ∈ props, cleanVal v) → setIkePolicy name mode props [] [] = .ok L →
      readIkePolicy name
        (relFeed ("set security ike policy ".data ++ name ++ [' ']) L) =
        (⟨name, mode, [], [], props⟩, none)) ∧
    (∀ (areaID version routingInstance : GoStr) (ifs : List ospfInterface),
      (∀ i ∈ ifs, '\n' ∉ i.name ∧ ' ' ∉ i.name ∧ '<' ∉ i.name) →
      (∀ i ∈ ifs, ospfIfaceHasField i = true) →
      (∀ i ∈ ifs, ospfIfaceBounded i) →
      ((ifs.map fun i => i.name).Nodup) →
      readOspfArea areaID version routingInstance
        (relFeed (ospfSetPre areaID version routingInstance)
          (setOspfArea areaID version routingInstance ifs)) =
        (⟨areaID, routingInstance, version, ifs⟩, none)) := by
  refine ⟨?_, ?_, ?_, ?_⟩
  · intro name pfs props h1 h2
    exact ipsec_roundtrip name pfs props h1 h2
  · intro name aa am dg ea ls h1 h2 h3 h4 h5
    exact ikeProposal_roundtrip name aa am dg ea ls h1 h2 h3 h4 h5
  · intro name mode props L h1 h2 h3 h4
    exact ikePolicy_roundtrip name mode props L h1 h2 h3 h4
  · intro areaID version routingInstance ifs h1 h2 h3 h4
    exact ospf_roundtrip areaID version routingInstance ifs h1 h2 h3 h4

/-- C4 witness: the corrected round-trip evaluated at one concrete record of
each resource. -/
theorem c4_roundtrip_witness :
    (readIpsecPolicy "POL1".data
      (relFeed ("set security ipsec policy ".data ++ "POL1".data ++ [' '])
        (setIpsecPolicy "POL1".data "group14".data ["p1".data, "p2".data])) =
      ⟨"POL1".data, "group14".data, ["p1".data, "p2".data]⟩) ∧
    (readIkeProposal "IKEPROP".data
      (relFeed ("set security ike proposal ".data ++ "IKEPROP".data ++ [' '])
        (setIkeProposal "IKEPROP".data "sha1".data "pre-shared-keys".data
          "group2".data "aes-128-cbc".data 3600)) =
      (⟨3600, "IKEPROP".data, "sha1".data, "pre-shared-keys".data, "group2".data,
        "aes-128-cbc".data⟩, none)) ∧
    (readIkePolicy "IKEPOL".data
      (relFeed ("set security ike policy ".data ++ "IKEPOL".data ++ [' '])
        ["set security ike policy IKEPOL mode main".data,
          "set security ike policy IKEPOL proposals prop1".data]) =
      (⟨"IKEPOL".data, "main".data, [], [], ["prop1".data]⟩, none)) ∧
    (readOspfArea "0".data "v2".data defaultWord
      (relFeed (ospfSetPre "0".data "v2".data defaultWord)
        (setOspfArea "0".data "v2".data defaultWord
          [⟨"e0".data, false, true, 10, 0, 0, 40⟩])) =
      (⟨"0".data, defaultWord, "v2".data,
        [⟨"e0".data, false, true, 10, 0, 0, 40⟩]⟩, none)) :=
  ⟨c4_roundtrip.1 "POL1".data "group14".data ["p1".data, "p2".data]
      (by decide) (by decide),
    c4_roundtrip.2.1 "IKEPROP".data "sha1".data "pre-shared-keys".data "group2".data
      "aes-128-cbc".data 3600 (by decide) (by decide) (by decide) (by decide) (by decide),
    c4_roundtrip.2.2.1 "IKEPOL".data "main".data ["prop1".data]
      ["set security ike policy IKEPOL mode main".data,
        "set security ike policy IKEPOL proposals prop1".data]
      (by decide) (by decide) (by decide) (by decide),
    c4_roundtrip.2.2.2 "0".data "v2".data defaultWord
      [⟨"e0".data, false, true, 10, 0, 0, 40⟩] (by decide) (by decide) (by decide)
      (by decide)⟩
